import Mathlib

/-
  Verification of the offer-dispatch / matching / wallet core of the Gusbo
  local-services marketplace (src/Myapp/views.py), as a shallow embedding.

  Modelling conventions:
  * timestamps are natural numbers (minutes); `timezone.now()` becomes an
    explicit `now : Nat` parameter;
  * Python ints are `Int`/`Nat`, money amounts and ratings are `ℚ`
    (Python floats and Decimals; the claims only involve exact values);
  * Django querysets become explicit list traversals over a `St` record
    holding the table contents, in primary-key order;
  * `send_sms` is an external collaborator with no effect on the modelled
    state; offer token strings (random, collision-retried) are dropped since
    no claim mentions them; so are fields the claims never touch
    (customer identity, notes payloads, delivery detail strings).
  The `ProviderWallet` / `CreditTransaction` model classes and the
  `expires_at` / `reminder_sent_at` / `quote_amount` / `matched_offer`
  columns are absent from the checked-in `models.py` (it predates
  `views.py`); their record shapes below are modelled from the spec
  (sections 3 and 4.7), while all behaviour is translated from `views.py`.
-/

namespace Gusbo

/-- `ProviderOffer.status` values (models.py `STATUS_CHOICES`). -/
inductive OfferStatus
  | pending
  | accepted
  | rejected
  | expired
  | failed
deriving DecidableEq, Repr

/-- `ServiceRequest.status` values (including `pending_customer`, used
throughout views.py). -/
inductive RequestStatus
  | new
  | pending_provider
  | pending_customer
  | matched
  | completed
  | cancelled
deriving DecidableEq, Repr

/-- A provider row (models.py `Provider`); `service_types` is the
many-to-many set of offered service type ids. -/
structure Provider where
  id : Nat
  full_name : String
  city : String
  district : String
  rating : ℚ
  is_available : Bool
  service_types : List Nat
deriving DecidableEq, Repr

/-- A service request row. `matched_offer` / `matched_at` are modelled from
the spec (section 3), matching their use in views.py. -/
structure ServiceRequest where
  id : Nat
  city : String
  district : String
  service_type : Nat
  status : RequestStatus
  matched_provider : Option Nat
  matched_offer : Option Nat
  matched_at : Option Nat
deriving DecidableEq, Repr

/-- A provider offer row. `expires_at`, `reminder_sent_at`, `quote_amount`,
`quote_note` are modelled from the spec (section 3), matching their use in
views.py. -/
structure ProviderOffer where
  id : Nat
  service_request_id : Nat
  provider_id : Nat
  sequence : Nat
  status : OfferStatus
  sent_at : Nat
  expires_at : Option Nat
  reminder_sent_at : Option Nat
  responded_at : Option Nat
  quote_amount : Option ℚ
  quote_note : String
deriving DecidableEq, Repr

/-- Modelled from the spec: `ProviderWallet` (one-to-one with Provider,
integer credit balance); the model class is missing from the checked-in
models.py. -/
structure ProviderWallet where
  provider_id : Nat
  balance : Int
deriving DecidableEq, Repr

/-- Modelled from the spec: `CreditTransaction` append-only ledger row; the
model class is missing from the checked-in models.py. -/
structure CreditTransaction where
  provider_id : Nat
  transaction_type : String
  amount : Int
  balance_after : Int
  reference_offer : Option Nat
deriving DecidableEq, Repr

/-- The relational store: one list per table, rows in primary-key order.
`next_offer_id` models the autoincrement primary key for offers. -/
structure St where
  providers : List Provider
  requests : List ServiceRequest
  offers : List ProviderOffer
  wallets : List ProviderWallet
  txns : List CreditTransaction
  next_offer_id : Nat
deriving DecidableEq, Repr

/-- External configuration (Django settings); views.py clamps each value on
read, see the accessors below. -/
structure Config where
  offer_expiry_minutes : Nat
  offer_reminder_minutes : Nat
  initial_provider_credits : Int
  quote_credit_cost : Int
deriving DecidableEq, Repr

/-- views.py `get_offer_expiry_minutes`: `max(1, OFFER_EXPIRY_MINUTES)`,
default 180. -/
def get_offer_expiry_minutes (cfg : Config) : Nat :=
  max 1 cfg.offer_expiry_minutes

/-- views.py `get_offer_reminder_minutes`: `max(1, OFFER_REMINDER_MINUTES)`,
default 60. -/
def get_offer_reminder_minutes (cfg : Config) : Nat :=
  max 1 cfg.offer_reminder_minutes

/-- views.py `get_initial_provider_credits`: `max(0, INITIAL_PROVIDER_CREDITS)`,
default 10. -/
def get_initial_provider_credits (cfg : Config) : Int :=
  max 0 cfg.initial_provider_credits

/-- views.py `get_quote_credit_cost`: `max(1, QUOTE_CREDIT_COST)`, default 1. -/
def get_quote_credit_cost (cfg : Config) : Int :=
  max 1 cfg.quote_credit_cost

/-- The default settings used by views.py when nothing is configured. -/
def defaultConfig : Config :=
  { offer_expiry_minutes := 180
    offer_reminder_minutes := 60
    initial_provider_credits := 10
    quote_credit_cost := 1 }

/-- forms.py `ANY_DISTRICT_VALUE = "Herhangi"`. -/
def ANY_DISTRICT_VALUE : String := "Herhangi"

/-- All offers of one request (`service_request.provider_offers`). -/
def offersOfRequest (st : St) (rid : Nat) : List ProviderOffer :=
  st.offers.filter (fun o => o.service_request_id == rid)

/-- Row lookup by primary key (`ServiceRequest.objects.filter(id=...)`). -/
def findRequest (st : St) (rid : Nat) : Option ServiceRequest :=
  st.requests.find? (fun r => r.id == rid)

/-- Persist a request row by primary key (Django `save`). -/
def updateRequest (st : St) (r : ServiceRequest) : St :=
  { st with requests := st.requests.map (fun q => if q.id = r.id then r else q) }

/-- Persist an offer row by primary key (Django `save`). -/
def updateOffer (st : St) (o : ProviderOffer) : St :=
  { st with offers := st.offers.map (fun q => if q.id = o.id then o else q) }

/-- Update only the `status` column of a request row. -/
def setRequestStatus (st : St) (rid : Nat) (s : RequestStatus) : St :=
  { st with requests := st.requests.map (fun r => if r.id = rid then { r with status := s } else r) }

/-- Python `round(x, 1)`: one decimal place. Python rounds float half-ties to
even; ties never occur in the claims, and this model rounds them up.
(`Rat.floor` rather than `⌊·⌋` keeps the definition kernel-computable.) -/
def round1 (x : ℚ) : ℚ :=
  ((10 * x + 1 / 2).floor : ℚ) / 10

/-- Python `offer.sequence or 1` (the field is an integer defaulting to 1;
`or 1` replaces a zero value). -/
def seqOr1 (n : Nat) : Nat :=
  if n = 0 then 1 else n

/-- An accepted offer as consumed by `score_accepted_offers`: the row fields
the function reads (`quote_amount`, `sequence`, `offer.provider.rating`)
plus the score attributes it annotates. -/
structure ScoredOffer where
  offerId : Nat
  quote_amount : Option ℚ
  sequence : Nat
  providerRating : ℚ
  price_score : ℚ
  rating_score : ℚ
  speed_score : ℚ
  comparison_score : ℚ
deriving DecidableEq, Repr

/-- `[float(offer.quote_amount) for offer in offers if offer.quote_amount is not None]`. -/
def quoteValues (offers : List ScoredOffer) : List ℚ :=
  offers.filterMap (fun o => o.quote_amount)

/-- `min(quote_values) if quote_values else None`. -/
def listMinQ : List ℚ → Option ℚ
  | [] => none
  | q :: qs => some (qs.foldl min q)

/-- `max(quote_values) if quote_values else None`. -/
def listMaxQ : List ℚ → Option ℚ
  | [] => none
  | q :: qs => some (qs.foldl max q)

/-- `max((offer.sequence or 1) for offer in offers)` (the trailing `or 1` in
views.py is vacuous because every element is at least 1). -/
def maxSequenceOf (offers : List ScoredOffer) : Nat :=
  (offers.map (fun o => seqOr1 o.sequence)).foldl max 0

/-- The price sub-score of one offer (views.py lines 329-335). -/
def priceScore (minQ maxQ : Option ℚ) (quote : Option ℚ) : ℚ :=
  match quote, minQ, maxQ with
  | some qv, some mn, some mx =>
      if mx = mn then 55
      else max 0 (min 55 (55 * (1 - (qv - mn) / (mx - mn))))
  | _, _, _ => 22

/-- The rating sub-score of one offer (views.py line 337). -/
def ratingScore (rating : ℚ) : ℚ :=
  max 0 (min 35 (rating / 5 * 35))

/-- The speed sub-score of one offer (views.py lines 338-341). -/
def speedScore (maxSeq : Nat) (sequence : Nat) : ℚ :=
  if maxSeq ≤ 1 then 10
  else max 0 (min 10 (((maxSeq : ℚ) - (seqOr1 sequence : ℚ)) / ((maxSeq : ℚ) - 1) * 10))

/-- Annotate one offer with its rounded sub-scores and comparison score
(views.py lines 343-346). -/
def scoreOne (minQ maxQ : Option ℚ) (maxSeq : Nat) (o : ScoredOffer) : ScoredOffer :=
  { o with
    price_score := round1 (priceScore minQ maxQ o.quote_amount)
    rating_score := round1 (ratingScore o.providerRating)
    speed_score := round1 (speedScore maxSeq o.sequence)
    comparison_score := round1 (round1 (priceScore minQ maxQ o.quote_amount)
      + round1 (ratingScore o.providerRating) + round1 (speedScore maxSeq o.sequence)) }

/-- Strict order on the second sort-key component: quote ascending with a
missing quote as `float("inf")` (worst). -/
def quoteKeyLt : Option ℚ → Option ℚ → Prop
  | some a, some b => a < b
  | some _, none => True
  | none, _ => False

instance : DecidableRel quoteKeyLt := by
  intro a b
  cases a <;> cases b <;> simp [quoteKeyLt] <;> infer_instance

/-- The sort key of views.py lines 348-355: comparison score descending, then
quote ascending (missing quote worst), then provider rating descending. -/
def offerKeyLE (a b : ScoredOffer) : Prop :=
  b.comparison_score < a.comparison_score ∨
    (a.comparison_score = b.comparison_score ∧
      (quoteKeyLt a.quote_amount b.quote_amount ∨
        (a.quote_amount = b.quote_amount ∧ b.providerRating ≤ a.providerRating)))

instance : DecidableRel offerKeyLE := by
  intro a b
  unfold offerKeyLE
  infer_instance

/-- views.py `score_accepted_offers`: annotate every accepted offer with
price / rating / speed sub-scores and sort best-first (Python `sorted` is
stable; so is insertion sort). -/
def score_accepted_offers (offers : List ScoredOffer) : List ScoredOffer :=
  if offers.isEmpty then []
  else
    let minQ := listMinQ (quoteValues offers)
    let maxQ := listMaxQ (quoteValues offers)
    let maxSeq := maxSequenceOf offers
    (offers.map (scoreOne minQ maxQ maxSeq)).insertionSort offerKeyLE

/-- `String.toLower`, written as a structural map over the character list so
that it evaluates by reduction. -/
def strLower (s : String) : String :=
  ⟨s.data.map Char.toLower⟩

/-- Case-insensitive match (Django `iexact`). -/
def iexact (a b : String) : Bool :=
  strLower a == strLower b

/-- Provider eligibility for a request (views.py lines 366-370):
available, offers the service type, same city case-insensitively. -/
def isEligible (r : ServiceRequest) (p : Provider) : Bool :=
  p.is_available && p.service_types.contains r.service_type && iexact p.city r.city

/-- Lexicographic comparison of character lists (ascending collation for the
`full_name` sort key), written so that it evaluates by reduction. -/
def nameLeB : List Char → List Char → Bool
  | [], _ => true
  | _ :: _, [] => false
  | a :: as, b :: bs => if a < b then true else if b < a then false else nameLeB as bs

/-- Name order: `full_name` ascending. -/
def nameLE (a b : String) : Prop :=
  nameLeB a.data b.data = true

instance : DecidableRel nameLE := by
  intro a b
  unfold nameLE
  infer_instance

/-- Django `order_by("-rating", "full_name")`: rating descending, then full
name ascending. Ties beyond the key keep input (table) order. -/
def providerOrder (p q : Provider) : Prop :=
  q.rating < p.rating ∨ (p.rating = q.rating ∧ nameLE p.full_name q.full_name)

instance : DecidableRel providerOrder := by
  intro p q
  unfold providerOrder
  infer_instance

/-- Sort a provider list by rating descending then name ascending. -/
def sortProviders (l : List Provider) : List Provider :=
  l.insertionSort providerOrder

/-- views.py `build_provider_candidate_groups`: ordered tiers of eligible
providers; a single tier when the district is the any-district sentinel,
otherwise district-exact matches first and the remaining city matches
(excluded by id) second, empty tiers omitted. -/
def build_provider_candidate_groups (providers : List Provider) (r : ServiceRequest) :
    List (List Provider) :=
  let base := providers.filter (isEligible r)
  if r.district = ANY_DISTRICT_VALUE then
    [sortProviders base]
  else
    let district_first := sortProviders (base.filter (fun p => iexact p.district r.district))
    let remaining_city :=
      sortProviders (base.filter (fun p => !(district_first.any (fun q => q.id == p.id))))
    (if district_first.isEmpty then [] else [district_first]) ++
      (if remaining_city.isEmpty then [] else [remaining_city])

/-- Result of `dispatch_next_provider_offer` (views.py returns a dict with a
`result` key and, for `offers-created`, the created offer rows). -/
inductive DispatchOutcome
  | offers_created (offers : List ProviderOffer)
  | no_candidates
  | all_contacted
deriving DecidableEq, Repr

/-- The offers created by a dispatch outcome (empty unless offers were
created). -/
def DispatchOutcome.created : DispatchOutcome → List ProviderOffer
  | .offers_created os => os
  | _ => []

/-- Reset a request out of any matched state into `s` (views.py clears
`matched_provider`, `matched_offer`, `matched_at` alongside `status`). -/
def clearMatch (r : ServiceRequest) (s : RequestStatus) : ServiceRequest :=
  { r with status := s, matched_provider := none, matched_offer := none, matched_at := none }

/-- The offer rows created for one dispatch wave (views.py lines 415-429):
one `pending` offer per provider, `sent_at = now`,
`expires_at = now + expiry`, no reminder, and `next_sequence` incremented
after every row. Fresh primary keys stand in for the random tokens. -/
def createWaveOffers (rid : Nat) (now : Nat) (expiresAt : Nat) :
    Nat → Nat → List Provider → List ProviderOffer
  | _, _, [] => []
  | seq, key, p :: ps =>
      { id := key
        service_request_id := rid
        provider_id := p.id
        sequence := seq
        status := .pending
        sent_at := now
        expires_at := some expiresAt
        reminder_sent_at := none
        responded_at := none
        quote_amount := none
        quote_note := "" } :: createWaveOffers rid now expiresAt (seq + 1) (key + 1) ps

/-- The tier walk of `dispatch_next_provider_offer` (views.py lines 406-436):
skip tiers whose providers were all already offered; create a wave for the
first tier with a not-yet-offered provider; fall through to `all-contacted`. -/
def dispatchWalk (cfg : Config) (st : St) (r : ServiceRequest) (now : Nat)
    (offered : List Nat) : List (List Provider) → St × DispatchOutcome
  | [] => (updateRequest st (clearMatch r .new), .all_contacted)
  | g :: gs =>
      let next_providers := g.filter (fun p => !(offered.contains p.id))
      if next_providers.isEmpty then dispatchWalk cfg st r now offered gs
      else
        let next_sequence := (offersOfRequest st r.id).length + 1
        let expires_at := now + get_offer_expiry_minutes cfg
        let created := createWaveOffers r.id now expires_at next_sequence st.next_offer_id next_providers
        let st1 : St := { st with
          offers := st.offers ++ created
          next_offer_id := st.next_offer_id + created.length }
        (updateRequest st1 (clearMatch r .pending_provider), .offers_created created)

/-- views.py `dispatch_next_provider_offer`: advance a request to its next
tier of un-contacted candidates. -/
def dispatch_next_provider_offer (cfg : Config) (st : St) (r : ServiceRequest) (now : Nat) :
    St × DispatchOutcome :=
  let groups := build_provider_candidate_groups st.providers r
  if groups.isEmpty then
    (updateRequest st (clearMatch r .new), .no_candidates)
  else
    let offered := (offersOfRequest st r.id).map (fun o => o.provider_id)
    dispatchWalk cfg st r now offered groups

/-- Step 1 of `refresh_offer_lifecycle` (views.py lines 199-205): backfill
`expires_at` for pending offers lacking one, from `sent_at + expiry`. -/
def backfillOffer (cfg : Config) (o : ProviderOffer) : ProviderOffer :=
  if o.status = .pending ∧ o.expires_at = none then
    { o with expires_at := some (o.sent_at + get_offer_expiry_minutes cfg) }
  else o

/-- The filter of views.py line 207: pending with `expires_at <= now`. -/
def isExpiringNow (now : Nat) (o : ProviderOffer) : Bool :=
  o.status == .pending &&
    (match o.expires_at with
      | some e => decide (e ≤ now)
      | none => false)

/-- Step 2 of `refresh_offer_lifecycle` (views.py lines 207-209): expire
stale pending offers, stamping `responded_at`. -/
def expireOffer (now : Nat) (o : ProviderOffer) : ProviderOffer :=
  if isExpiringNow now o then { o with status := .expired, responded_at := some now }
  else o

/-- The reminder-window filter of views.py lines 212-220: pending, not yet
reminded, with `now < expires_at <= now + reminder_minutes`. -/
def needsReminder (cfg : Config) (now : Nat) (o : ProviderOffer) : Bool :=
  o.status == .pending && o.reminder_sent_at == none &&
    (match o.expires_at with
      | some e => decide (now < e) && decide (e ≤ now + get_offer_reminder_minutes cfg)
      | none => false)

/-- Step 3 of `refresh_offer_lifecycle` (views.py lines 221-230): send the
reminder (external SMS, no modelled effect) and stamp `reminder_sent_at`. -/
def remindOffer (cfg : Config) (now : Nat) (o : ProviderOffer) : ProviderOffer :=
  if needsReminder cfg now o then { o with reminder_sent_at := some now }
  else o

/-- Step 4 of `refresh_offer_lifecycle` for one impacted request (views.py
lines 236-252): skip closed/matched requests, keep `pending_customer` ahead
of `pending_provider`, otherwise re-dispatch. `r` is the snapshot row
fetched before the loop; offer queries run against the current state. -/
def reconcileOne (cfg : Config) (now : Nat) (st : St) (r : ServiceRequest) : St :=
  if r.status = .matched ∨ r.status = .completed ∨ r.status = .cancelled ∨
      r.matched_provider ≠ none then st
  else if (offersOfRequest st r.id).any (fun o => o.status == .accepted) then
    setRequestStatus st r.id .pending_customer
  else if (offersOfRequest st r.id).any (fun o => o.status == .pending) then
    setRequestStatus st r.id .pending_provider
  else
    (dispatch_next_provider_offer cfg st r now).1

/-- views.py `refresh_offer_lifecycle`: the lazy lifecycle sweep — backfill
expiries, expire stale pending offers, send reminders, then reconcile the
requests that lost offers to expiry (early return when none did). -/
def refresh_offer_lifecycle (cfg : Config) (st : St) (now : Nat) : St :=
  let offers1 := st.offers.map (backfillOffer cfg)
  let expiredIds := (offers1.filter (isExpiringNow now)).map (fun o => o.service_request_id)
  let offers3 := (offers1.map (expireOffer now)).map (remindOffer cfg now)
  let st3 : St := { st with offers := offers3 }
  if expiredIds.isEmpty then st3
  else
    let impacted := st3.requests.filter (fun r => expiredIds.contains r.id)
    impacted.foldl (reconcileOne cfg now) st3

/-- Wallet lookup (`ProviderWallet.objects` keyed by the one-to-one
provider). -/
def findWallet (st : St) (pid : Nat) : Option ProviderWallet :=
  st.wallets.find? (fun w => w.provider_id == pid)

/-- views.py `get_or_create_provider_wallet`: lazily create the wallet with
the configured starting grant, recording the grant as a `welcome` ledger row
when it is positive. -/
def get_or_create_provider_wallet (cfg : Config) (st : St) (pid : Nat) :
    St × ProviderWallet :=
  match findWallet st pid with
  | some w => (st, w)
  | none =>
      let initial := get_initial_provider_credits cfg
      let w : ProviderWallet := { provider_id := pid, balance := initial }
      let st1 : St := { st with wallets := st.wallets ++ [w] }
      if initial > 0 then
        ({ st1 with txns := st1.txns ++
            [{ provider_id := pid
               transaction_type := "welcome"
               amount := initial
               balance_after := w.balance
               reference_offer := none }] }, w)
      else (st1, w)

/-- Replace the wallet row of one provider (Django `save`). -/
def storeWallet (st : St) (w : ProviderWallet) : St :=
  { st with wallets := st.wallets.map (fun x => if x.provider_id = w.provider_id then w else x) }

/-- views.py `apply_wallet_transaction`: inside one transaction, fetch or
create the wallet, refuse any amount that would drive the balance negative
(the lazy creation, if it happened, still commits), otherwise persist the
new balance and append one ledger row. -/
def apply_wallet_transaction (cfg : Config) (st : St) (pid : Nat) (amount : Int)
    (transaction_type : String) (reference_offer : Option Nat) :
    St × Option ProviderWallet :=
  let (st1, wallet) := get_or_create_provider_wallet cfg st pid
  let next_balance := wallet.balance + amount
  if next_balance < 0 then (st1, none)
  else
    let w1 := { wallet with balance := next_balance }
    let st2 := storeWallet st1 w1
    ({ st2 with txns := st2.txns ++
        [{ provider_id := pid
           transaction_type := transaction_type
           amount := amount
           balance_after := next_balance
           reference_offer := reference_offer }] }, some w1)

/-- Result of `provider_accept_offer` (views.py surfaces these as redirect
messages). -/
inductive AcceptOutcome
  | accepted
  | offer_not_found
  | request_missing
  | offer_not_open
  | request_closed
  | quote_invalid
  | insufficient_credits
deriving DecidableEq, Repr

/-- views.py `provider_accept_offer` (lines 1552-1633): lock the offer and
its request, expire the offer when the request is already closed, validate
the quote (`quote` is the parsed POST amount, `none` when missing or
unparsable), check the wallet against the quote credit cost, then accept the
offer, debit the fee with its ledger row, and move the request to
`pending_customer`. -/
def provider_accept_offer (cfg : Config) (st : St) (pid : Nat) (offerId : Nat)
    (quote : Option ℚ) (note : String) (now : Nat) : St × AcceptOutcome :=
  match st.offers.find? (fun o => o.id == offerId && o.provider_id == pid) with
  | none => (st, .offer_not_found)
  | some offer =>
    match findRequest st offer.service_request_id with
    | none => (st, .request_missing)
    | some req =>
      if offer.status ≠ .pending then (st, .offer_not_open)
      else if req.status = .matched ∨ req.status = .completed ∨ req.status = .cancelled then
        (updateOffer st { offer with status := .expired, responded_at := some now },
          .request_closed)
      else
        match quote with
        | none => (st, .quote_invalid)
        | some q =>
          if q ≤ 0 then (st, .quote_invalid)
          else
            let cost := get_quote_credit_cost cfg
            let (st1, wallet) := get_or_create_provider_wallet cfg st pid
            if wallet.balance < cost then (st1, .insufficient_credits)
            else
              let st2 := updateOffer st1 { offer with
                status := .accepted
                responded_at := some now
                quote_amount := some q
                quote_note := note.take 240 }
              let st3 := storeWallet st2 { wallet with balance := wallet.balance - cost }
              let st4 : St := { st3 with txns := st3.txns ++
                  [{ provider_id := pid
                     transaction_type := "quote_fee"
                     amount := -cost
                     balance_after := wallet.balance - cost
                     reference_offer := some offer.id }] }
              (setRequestStatus st4 req.id .pending_customer, .accepted)

/-- Result of `provider_reject_offer`. -/
inductive RejectOutcome
  | waiting_other_providers
  | waiting_customer_choice
  | redispatched (n : Nat)
  | request_deleted
  | offer_not_found
  | request_missing
deriving DecidableEq, Repr

/-- Deleting a `ServiceRequest` cascades to its offers (Django
`on_delete=CASCADE`; appointments and messages are outside this model). -/
def deleteRequestCascade (st : St) (rid : Nat) : St :=
  { st with
    requests := st.requests.filter (fun r => r.id != rid)
    offers := st.offers.filter (fun o => o.service_request_id != rid) }

/-- views.py `provider_reject_offer` (lines 1636-1685): reject the pending
offer; keep waiting while other pending offers remain (flipping to
`pending_customer` when an accepted offer exists); otherwise move to
`pending_customer` on an accepted offer, or re-dispatch; when re-dispatch
creates nothing, delete the request entirely. -/
def provider_reject_offer (cfg : Config) (st : St) (pid : Nat) (offerId : Nat)
    (now : Nat) : St × RejectOutcome :=
  match st.offers.find? (fun o => o.id == offerId && o.provider_id == pid
      && o.status == OfferStatus.pending) with
  | none => (st, .offer_not_found)
  | some offer =>
    match findRequest st offer.service_request_id with
    | none => (st, .request_missing)
    | some req =>
      let st1 := updateOffer st { offer with status := .rejected, responded_at := some now }
      let has_accepted := (offersOfRequest st1 req.id).any (fun o => o.status == .accepted)
      if (offersOfRequest st1 req.id).any (fun o => o.status == .pending) then
        (if has_accepted then setRequestStatus st1 req.id .pending_customer else st1,
          .waiting_other_providers)
      else if has_accepted then
        (setRequestStatus st1 req.id .pending_customer, .waiting_customer_choice)
      else
        match dispatch_next_provider_offer cfg st1 req now with
        | (st2, .offers_created os) => (st2, .redispatched os.length)
        | (st2, _) => (deleteRequestCascade st2 req.id, .request_deleted)

/-- Result of `select_provider_offer`. -/
inductive SelectOutcome
  | selected
  | not_selectable
  | offer_not_selectable
  | request_missing
deriving DecidableEq, Repr

/-- views.py `select_provider_offer` (lines 1246-1292): only while the
request is `pending_provider`/`pending_customer` and unmatched; expire every
other pending/accepted offer of the request, then record the match. -/
def select_provider_offer (st : St) (rid : Nat) (offerId : Nat) (now : Nat) :
    St × SelectOutcome :=
  match findRequest st rid with
  | none => (st, .request_missing)
  | some req =>
    if ¬ (req.status = .pending_provider ∨ req.status = .pending_customer) ∨
        req.matched_provider ≠ none then
      (st, .not_selectable)
    else
      match st.offers.find? (fun o => o.id == offerId && o.service_request_id == rid
          && o.status == OfferStatus.accepted) with
      | none => (st, .offer_not_selectable)
      | some selected_offer =>
        let st1 : St := { st with offers := st.offers.map (fun o =>
            if o.service_request_id = rid ∧ o.id ≠ selected_offer.id ∧
                (o.status = .pending ∨ o.status = .accepted)
            then { o with status := .expired, responded_at := some now }
            else o) }
        (updateRequest st1 { req with
            matched_provider := some selected_offer.provider_id
            matched_offer := some selected_offer.id
            matched_at := some now
            status := .matched }, .selected)

/-! Concrete fixtures used by witnesses and counterexamples. -/

/-- A provider in the fixture city offering service type 7. -/
def fixProviderA : Provider := ⟨1, "a", "girne", "karakum", 5, true, [7]⟩

/-- A second, lower-rated provider in the same city and district. -/
def fixProviderB : Provider := ⟨2, "b", "girne", "karakum", 4, true, [7]⟩

/-- A fixture request for service type 7 in the fixture city/district. -/
def fixRequest : ServiceRequest := ⟨10, "girne", "karakum", 7, .new, none, none, none⟩

/-- A pending offer of `fixRequest` held by `fixProviderA`. -/
def fixOffer : ProviderOffer := ⟨50, 10, 1, 1, .pending, 0, some 180, none, none, none, ""⟩

/-- A state holding `fixRequest` with both fixture providers and no offers
yet: dispatching creates a two-provider wave. -/
def fixDispatchSt : St := ⟨[fixProviderA, fixProviderB], [fixRequest], [], [], [], 100⟩

/-- First offer of the wave dispatched from `fixDispatchSt`. -/
def fixWaveOffer1 : ProviderOffer := ⟨100, 10, 1, 1, .pending, 0, some 180, none, none, none, ""⟩

/-- Second offer of the wave dispatched from `fixDispatchSt`. -/
def fixWaveOffer2 : ProviderOffer := ⟨101, 10, 2, 2, .pending, 0, some 180, none, none, none, ""⟩

/-- An accepted offer with a quote, for the selection fixtures. -/
def fixSelOffer : ProviderOffer := ⟨50, 10, 1, 1, .accepted, 0, some 180, none, some 1, some 1200, ""⟩

/-- A competing pending offer of the same request. -/
def fixOtherOffer : ProviderOffer := ⟨51, 10, 2, 2, .pending, 0, some 180, none, none, none, ""⟩

/-- A `pending_customer` request with one accepted and one pending offer. -/
def fixSelectSt : St :=
  ⟨[fixProviderA, fixProviderB], [{ fixRequest with status := .pending_customer }],
    [fixSelOffer, fixOtherOffer], [], [], 52⟩

/-- The same request already matched to provider 1. -/
def fixMatchedSt : St :=
  ⟨[fixProviderA], [{ fixRequest with status := .matched, matched_provider := some 1 }],
    [fixSelOffer], [], [], 52⟩

/-! Wallet-operation machinery for the ledger invariant (claim about
`sum(CreditTransaction.amount) == ProviderWallet.balance`). -/

/-- Sum of the ledger amounts of one provider. -/
def txnSum (st : St) (pid : Nat) : Int :=
  ((st.txns.filter (fun t => t.provider_id == pid)).map (fun t => t.amount)).sum

/-- The provider's wallet balance, 0 when no wallet row exists yet. -/
def walletBalance (st : St) (pid : Nat) : Int :=
  match findWallet st pid with
  | some w => w.balance
  | none => 0

/-- The ledger invariant: wallets are one per provider and every provider's
ledger sums to their wallet balance. -/
def WalletLedgerInv (st : St) : Prop :=
  (st.wallets.map (fun w => w.provider_id)).Nodup ∧
    ∀ pid, txnSum st pid = walletBalance st pid

/-- The wallet-touching operations of views.py: lazy wallet creation,
`apply_wallet_transaction` (package purchase / generic ledger write), and
the quote-fee debit inside `provider_accept_offer`. -/
inductive WalletOp
  | touch (pid : Nat)
  | applyTxn (pid : Nat) (amount : Int) (transaction_type : String)
      (reference_offer : Option Nat)
  | acceptOffer (pid offerId : Nat) (quote : Option ℚ) (note : String) (now : Nat)

/-- Effect of one wallet operation on the state. -/
def walletStep (cfg : Config) (st : St) : WalletOp → St
  | .touch pid => (get_or_create_provider_wallet cfg st pid).1
  | .applyTxn pid amount t ref => (apply_wallet_transaction cfg st pid amount t ref).1
  | .acceptOffer pid oid q note now => (provider_accept_offer cfg st pid oid q note now).1

/-- An offer the lifecycle sweep leaves alone at time `now`: every pending
offer has an expiry strictly in the future and, when that expiry falls
inside the reminder window, its reminder was already sent. -/
def OfferQuiet (cfg : Config) (now : Nat) (o : ProviderOffer) : Prop :=
  o.status = .pending → ∃ e, o.expires_at = some e ∧ now < e ∧
    (e ≤ now + get_offer_reminder_minutes cfg → o.reminder_sent_at ≠ none)

/-- A quoteless accepted offer with sequence 1 (scoring fixtures). -/
def fixSpeedOfferA : ScoredOffer := ⟨1, none, 1, 0, 0, 0, 0, 0⟩

/-- A quoteless accepted offer with sequence 3. -/
def fixSpeedOfferB : ScoredOffer := ⟨2, none, 3, 0, 0, 0, 0, 0⟩

/-- A quoteless accepted offer with sequence 2 — a one-element set sharing a
single sequence value above 1. -/
def fixSpeedOfferC : ScoredOffer := ⟨3, none, 2, 0, 0, 0, 0, 0⟩

/-- An accepted offer carrying a quote, for the price-score fixtures. -/
def mkQuoteOffer (i : Nat) (q : ℚ) (s : Nat) (rt : ℚ) : ScoredOffer :=
  ⟨i, some q, s, rt, 0, 0, 0, 0⟩

/-- Two competing quotes (950 vs 1800) with equal rating and sequence. -/
def fixQuoteOffers : List ScoredOffer :=
  [mkQuoteOffer 1 950 1 5, mkQuoteOffer 2 1800 1 5]

/-- The scored row of the 950 quote in `fixQuoteOffers`. -/
def fixScoredQuote1 : ScoredOffer :=
  scoreOne (listMinQ (quoteValues fixQuoteOffers)) (listMaxQ (quoteValues fixQuoteOffers))
    (maxSequenceOf fixQuoteOffers) (mkQuoteOffer 1 950 1 5)

/-- The scored row of the 1800 quote in `fixQuoteOffers`. -/
def fixScoredQuote2 : ScoredOffer :=
  scoreOne (listMinQ (quoteValues fixQuoteOffers)) (listMaxQ (quoteValues fixQuoteOffers))
    (maxSequenceOf fixQuoteOffers) (mkQuoteOffer 2 1800 1 5)

/-- A request whose district is the any-district sentinel. -/
def fixSentinelRequest : ServiceRequest := { fixRequest with district := ANY_DISTRICT_VALUE }

/-- A pending offer already past its expiry, with a second provider ready
for re-dispatch (lifecycle fixture). -/
def fixLifecycleSt : St :=
  ⟨[fixProviderA, fixProviderB], [{ fixRequest with status := .pending_provider }],
    [⟨100, 10, 1, 1, .pending, 0, some 3, none, none, none, ""⟩], [], [], 101⟩

/-! ## Theorems -/

/-- Sequences of the offers created in one wave: consecutive from the
starting sequence. -/
theorem createWaveOffers_get_sequence (rid now expiresAt : Nat) :
    ∀ (ps : List Provider) (seq key i : Nat)
      (hi : i < (createWaveOffers rid now expiresAt seq key ps).length),
      ((createWaveOffers rid now expiresAt seq key ps).get ⟨i, hi⟩).sequence = seq + i := by
  intro ps
  induction ps with
  | nil => intro seq key i hi; simp [createWaveOffers] at hi
  | cons p ps ih =>
      intro seq key i hi
      cases i with
      | zero => simp [createWaveOffers]
      | succ j =>
          have hj : j < (createWaveOffers rid now expiresAt (seq + 1) (key + 1) ps).length := by
            simpa [createWaveOffers] using hi
          have hstep : ((createWaveOffers rid now expiresAt seq key (p :: ps)).get ⟨j + 1, hi⟩)
              = (createWaveOffers rid now expiresAt (seq + 1) (key + 1) ps).get ⟨j, hj⟩ := rfl
          rw [hstep, ih (seq + 1) (key + 1) j hj]
          omega

/-- A wave over a nonempty provider list is nonempty. -/
theorem createWaveOffers_ne_nil (rid now expiresAt seq key : Nat) (p : Provider)
    (ps : List Provider) :
    createWaveOffers rid now expiresAt seq key (p :: ps) ≠ [] := by
  simp [createWaveOffers]

/-- The tier walk only reports `offers_created` with the consecutive
sequences of `createWaveOffers`, starting at existing-offer count + 1. -/
theorem dispatchWalk_offers_created (cfg : Config) (st : St) (r : ServiceRequest)
    (now : Nat) (offered : List Nat) (os : List ProviderOffer) :
    ∀ groups : List (List Provider),
      (dispatchWalk cfg st r now offered groups).2 = .offers_created os →
      os ≠ [] ∧ ∀ i (hi : i < os.length),
        (os.get ⟨i, hi⟩).sequence = (offersOfRequest st r.id).length + 1 + i := by
  intro groups
  induction groups with
  | nil => intro h; simp [dispatchWalk] at h
  | cons g gs ih =>
      intro h
      rw [dispatchWalk] at h
      by_cases hempty : (g.filter (fun p => !(offered.contains p.id))).isEmpty = true
      · rw [if_pos hempty] at h
        exact ih h
      · rw [if_neg hempty] at h
        have hos : createWaveOffers r.id now (now + get_offer_expiry_minutes cfg)
            ((offersOfRequest st r.id).length + 1) st.next_offer_id
            (g.filter (fun p => !(offered.contains p.id))) = os := by
          have hc := congrArg DispatchOutcome.created h
          simpa [DispatchOutcome.created] using hc
        subst hos
        refine ⟨?_, ?_⟩
        · cases hg : g.filter (fun p => !(offered.contains p.id)) with
          | nil => rw [hg] at hempty; simp at hempty
          | cons p ps => exact createWaveOffers_ne_nil _ _ _ _ _ _ _
        · intro i hi
          exact createWaveOffers_get_sequence _ _ _ _ _ _ i hi

/-- C1 (amended): the offers created by one invocation of
`dispatch_next_provider_offer` carry consecutive — not equal — sequence
numbers: the i-th offer of the wave gets (count of the request's existing
offers) + 1 + i, so only the first one equals count + 1 and a wave over two
or more providers has pairwise distinct sequence values. -/
theorem dispatch_next_provider_offer_wave_sequences (cfg : Config) (st : St)
    (r : ServiceRequest) (now : Nat) (os : List ProviderOffer)
    (h : (dispatch_next_provider_offer cfg st r now).2 = .offers_created os) :
    os ≠ [] ∧ ∀ i (hi : i < os.length),
      (os.get ⟨i, hi⟩).sequence = (offersOfRequest st r.id).length + 1 + i := by
  rw [dispatch_next_provider_offer] at h
  by_cases hg : (build_provider_candidate_groups st.providers r).isEmpty
  · simp [hg] at h
  · simp only [hg, if_false] at h
    exact dispatchWalk_offers_created cfg st r now _ os _ h

/-- Witness for C1 (amended): the wave dispatched from `fixDispatchSt`
consists of the two fixture offers with sequences count+1+0 = 1 and
count+1+1 = 2. -/
theorem dispatch_next_provider_offer_wave_sequences_witness :
    ([fixWaveOffer1, fixWaveOffer2] : List ProviderOffer) ≠ [] ∧
    fixWaveOffer1.sequence = (offersOfRequest fixDispatchSt fixRequest.id).length + 1 + 0 ∧
    fixWaveOffer2.sequence = (offersOfRequest fixDispatchSt fixRequest.id).length + 1 + 1 := by
  have h := dispatch_next_provider_offer_wave_sequences defaultConfig fixDispatchSt fixRequest 0
    [fixWaveOffer1, fixWaveOffer2] (by decide)
  exact ⟨h.1, h.2 0 (by decide), h.2 1 (by decide)⟩

/-- Counterexample to C1 as stated: dispatching `fixRequest` (two eligible
providers, no prior offers) creates offers with sequences 1 and 2, so not
every offer of the wave carries sequence = existing-count + 1 = 1. -/
theorem dispatch_wave_same_sequence_counterexample :
    ((dispatch_next_provider_offer defaultConfig fixDispatchSt fixRequest 0).2.created.map
        (fun o => o.sequence) = [1, 2]) ∧
    ¬ (∀ o ∈ (dispatch_next_provider_offer defaultConfig fixDispatchSt fixRequest 0).2.created,
        o.sequence = (offersOfRequest fixDispatchSt fixRequest.id).length + 1) := by
  decide

/-- C7: while a request is `pending_provider`/`pending_customer` and
unmatched, selecting one of its accepted offers expires every other
pending/accepted offer of the request (stamping `responded_at`), leaves the
selected offer untouched (still `accepted`), records
`matched_provider`/`matched_offer`/`matched_at` and moves the request to
`matched`; a request that is already matched or in any other status is left
completely unchanged. -/
theorem select_provider_offer_spec :
    (∀ (st : St) (rid offerId now : Nat) (req : ServiceRequest) (sel : ProviderOffer),
      findRequest st rid = some req →
      (req.status = .pending_provider ∨ req.status = .pending_customer) →
      req.matched_provider = none →
      st.offers.find? (fun o => o.id == offerId && o.service_request_id == rid
          && o.status == OfferStatus.accepted) = some sel →
      (select_provider_offer st rid offerId now).2 = .selected ∧
      (select_provider_offer st rid offerId now).1.offers = st.offers.map (fun o =>
          if o.service_request_id = rid ∧ o.id ≠ sel.id ∧
              (o.status = .pending ∨ o.status = .accepted)
          then { o with status := .expired, responded_at := some now } else o) ∧
      (select_provider_offer st rid offerId now).1.requests = st.requests.map (fun r =>
          if r.id = req.id then
            { req with matched_provider := some sel.provider_id,
                       matched_offer := some sel.id, matched_at := some now,
                       status := RequestStatus.matched }
          else r) ∧
      (select_provider_offer st rid offerId now).1.wallets = st.wallets ∧
      (select_provider_offer st rid offerId now).1.txns = st.txns) ∧
    (∀ (st : St) (rid offerId now : Nat) (req : ServiceRequest),
      findRequest st rid = some req →
      (req.matched_provider ≠ none ∨
        (req.status ≠ .pending_provider ∧ req.status ≠ .pending_customer)) →
      select_provider_offer st rid offerId now = (st, .not_selectable)) := by
  constructor
  · intro st rid offerId now req sel hreq hstat hmp hsel
    unfold select_provider_offer
    simp only [hreq, hsel]
    rw [if_neg (by simp [hstat, hmp])]
    simp [updateRequest]
  · intro st rid offerId now req hreq hcond
    unfold select_provider_offer
    simp only [hreq]
    rw [if_pos]
    rcases hcond with h | ⟨h1, h2⟩
    · exact Or.inr h
    · exact Or.inl (by simp [h1, h2])

/-- Witness for C7: selecting the accepted fixture offer expires its pending
sibling and matches the request; the already-matched fixture request is left
unchanged. -/
theorem select_provider_offer_spec_witness :
    (select_provider_offer fixSelectSt 10 50 9).2 = .selected ∧
    (select_provider_offer fixSelectSt 10 50 9).1.offers =
      [fixSelOffer, { fixOtherOffer with status := .expired, responded_at := some 9 }] ∧
    select_provider_offer fixMatchedSt 10 50 9 = (fixMatchedSt, .not_selectable) := by
  have h1 := select_provider_offer_spec.1 fixSelectSt 10 50 9
    { fixRequest with status := .pending_customer } fixSelOffer
    (by decide) (by decide) (by decide) (by decide)
  have h2 := select_provider_offer_spec.2 fixMatchedSt 10 50 9
    { fixRequest with status := .matched, matched_provider := some 1 }
    (by decide) (by decide)
  exact ⟨h1.1, by rw [h1.2.1]; decide, h2⟩

/-- C6: accepting a pending offer of an open request with a valid quote
while the provider's wallet balance is strictly below the quote credit cost
is blocked with no state change at all: the result state is the input state
(offer still pending with no quote, wallet balance unchanged, no ledger row,
request status unchanged). -/
theorem provider_accept_offer_insufficient_credits_noop
    (cfg : Config) (st : St) (pid offerId : Nat) (q : ℚ) (note : String) (now : Nat)
    (offer : ProviderOffer) (req : ServiceRequest) (w : ProviderWallet)
    (hfind : st.offers.find? (fun o => o.id == offerId && o.provider_id == pid) = some offer)
    (hreq : findRequest st offer.service_request_id = some req)
    (hopen : offer.status = .pending)
    (hne1 : req.status ≠ .matched) (hne2 : req.status ≠ .completed)
    (hne3 : req.status ≠ .cancelled)
    (hq : 0 < q)
    (hw : findWallet st pid = some w)
    (hbal : w.balance < get_quote_credit_cost cfg) :
    provider_accept_offer cfg st pid offerId (some q) note now = (st, .insufficient_credits) := by
  unfold provider_accept_offer get_or_create_provider_wallet
  simp only [hfind, hreq, hw]
  simp [hopen, hne1, hne2, hne3, hq.not_le, hbal]

/-- Witness for C6: with a zero-balance wallet and quote credit cost 1, the
accept attempt returns the state unchanged. -/
theorem provider_accept_offer_insufficient_credits_noop_witness :
    provider_accept_offer defaultConfig
        ⟨[fixProviderA], [{ fixRequest with status := .pending_provider }], [fixOffer],
          [⟨1, 0⟩], [], 51⟩ 1 50 (some 100) "" 7 =
      (⟨[fixProviderA], [{ fixRequest with status := .pending_provider }], [fixOffer],
          [⟨1, 0⟩], [], 51⟩, .insufficient_credits) :=
  provider_accept_offer_insufficient_credits_noop defaultConfig
    ⟨[fixProviderA], [{ fixRequest with status := .pending_provider }], [fixOffer],
      [⟨1, 0⟩], [], 51⟩ 1 50 100 "" 7 fixOffer { fixRequest with status := .pending_provider }
    ⟨1, 0⟩ (by decide) (by decide) (by decide) (by decide) (by decide) (by decide)
    (by decide) (by decide) (by decide)

/-- C10: accepting a pending offer whose request is already matched,
completed or cancelled expires exactly that offer (stamping
`responded_at = now`) and changes nothing else: requests, wallets and the
ledger are untouched, no quote is recorded. -/
theorem provider_accept_offer_closed_request_expires
    (cfg : Config) (st : St) (pid offerId : Nat) (quote : Option ℚ) (note : String)
    (now : Nat) (offer : ProviderOffer) (req : ServiceRequest)
    (hfind : st.offers.find? (fun o => o.id == offerId && o.provider_id == pid) = some offer)
    (hreq : findRequest st offer.service_request_id = some req)
    (hopen : offer.status = .pending)
    (hclosed : req.status = .matched ∨ req.status = .completed ∨ req.status = .cancelled) :
    (provider_accept_offer cfg st pid offerId quote note now).2 = .request_closed ∧
    (provider_accept_offer cfg st pid offerId quote note now).1.requests = st.requests ∧
    (provider_accept_offer cfg st pid offerId quote note now).1.wallets = st.wallets ∧
    (provider_accept_offer cfg st pid offerId quote note now).1.txns = st.txns ∧
    (provider_accept_offer cfg st pid offerId quote note now).1.offers =
      st.offers.map (fun o =>
        if o.id = offer.id then { offer with status := .expired, responded_at := some now }
        else o) := by
  unfold provider_accept_offer
  simp only [hfind, hreq]
  simp [hopen, hclosed, updateOffer]

/-- Witness for C10: a pending offer of a matched request is expired by the
accept attempt; requests, wallets and ledger stay untouched. -/
theorem provider_accept_offer_closed_request_expires_witness :
    (provider_accept_offer defaultConfig
        ⟨[fixProviderA], [{ fixRequest with status := .matched }], [fixOffer], [], [], 51⟩
        1 50 (some 100) "" 7).2 = .request_closed ∧
    (provider_accept_offer defaultConfig
        ⟨[fixProviderA], [{ fixRequest with status := .matched }], [fixOffer], [], [], 51⟩
        1 50 (some 100) "" 7).1.offers =
      [{ fixOffer with status := .expired, responded_at := some 7 }] := by
  have h := provider_accept_offer_closed_request_expires defaultConfig
    ⟨[fixProviderA], [{ fixRequest with status := .matched }], [fixOffer], [], [], 51⟩
    1 50 (some 100) "" 7 fixOffer { fixRequest with status := .matched }
    (by decide) (by decide) (by decide) (Or.inl (by decide))
  exact ⟨h.1, by rw [h.2.2.2.2]; decide⟩

/-- A filter whose predicate fails on every element is empty. -/
theorem filterAllFalse {α : Type} (p : α → Bool) :
    ∀ l : List α, (∀ a ∈ l, p a = false) → l.filter p = [] := by
  intro l h
  induction l with
  | nil => rfl
  | cons x xs ih =>
      have hx := h x (List.mem_cons_self x xs)
      simp [List.filter_cons, hx, ih (fun a ha => h a (List.mem_cons_of_mem x ha))]

/-- Rows with pairwise-distinct keys are determined by their key. -/
theorem nodupMapInj {α β : Type} (f : α → β) :
    ∀ l : List α, (l.map f).Nodup → ∀ a ∈ l, ∀ b ∈ l, f a = f b → a = b := by
  intro l
  induction l with
  | nil => intro _ a ha; simp at ha
  | cons x xs ih =>
      intro hnd a ha b hb hf
      rw [List.map_cons, List.nodup_cons] at hnd
      rcases List.mem_cons.mp ha with rfl | ha'
      · rcases List.mem_cons.mp hb with rfl | hb'
        · rfl
        · exact absurd (hf ▸ List.mem_map_of_mem f hb') hnd.1
      · rcases List.mem_cons.mp hb with rfl | hb'
        · exact absurd (hf ▸ List.mem_map_of_mem f ha') hnd.1
        · exact ih hnd.2 a ha' b hb' hf

/-- When every provider of every tier already has an offer, the tier walk
falls through to `all-contacted` and resets the request to `new`. -/
theorem dispatchWalk_all_contacted (cfg : Config) (st : St) (r : ServiceRequest)
    (now : Nat) (offered : List Nat) :
    ∀ groups : List (List Provider), (∀ g ∈ groups, ∀ p ∈ g, offered.contains p.id = true) →
      dispatchWalk cfg st r now offered groups
        = (updateRequest st (clearMatch r .new), .all_contacted) := by
  intro groups
  induction groups with
  | nil => intro _; rw [dispatchWalk]
  | cons g gs ih =>
      intro hall
      rw [dispatchWalk]
      have hempty : (g.filter (fun p => !(offered.contains p.id))).isEmpty = true := by
        rw [filterAllFalse]
        · rfl
        · intro p hp
          have hc := hall g (List.mem_cons_self g gs) p hp
          simp only [hc, Bool.not_true]
      rw [if_pos hempty]
      exact ih (fun g2 hg2 => hall g2 (List.mem_cons_of_mem g hg2))

/-- After a cascade delete no row of the request remains. -/
theorem deleteRequestCascade_no_request (st : St) (rid : Nat) :
    ∀ r ∈ (deleteRequestCascade st rid).requests, r.id ≠ rid := by
  intro r hr
  unfold deleteRequestCascade at hr
  simp only [List.mem_filter] at hr
  simpa using hr.2

/-- C4: when a provider rejects a pending offer, no other pending offer and
no accepted offer of the request remains, and every candidate provider of
every tier has already been offered (so re-dispatch cannot create offers),
the ServiceRequest row is deleted entirely. -/
theorem provider_reject_offer_deletes_exhausted_request
    (cfg : Config) (st : St) (pid offerId now : Nat) (offer : ProviderOffer)
    (req : ServiceRequest)
    (hids : (st.offers.map (fun o => o.id)).Nodup)
    (hfind : st.offers.find? (fun o => o.id == offerId && o.provider_id == pid
        && o.status == OfferStatus.pending) = some offer)
    (hreq : findRequest st offer.service_request_id = some req)
    (hnopending : ∀ o ∈ st.offers, o.service_request_id = req.id → o.id ≠ offer.id →
        o.status ≠ .pending)
    (hnoaccepted : ∀ o ∈ st.offers, o.service_request_id = req.id → o.status ≠ .accepted)
    (hcontacted : ∀ g ∈ build_provider_candidate_groups st.providers req, ∀ p ∈ g,
        ((offersOfRequest st req.id).map (fun o => o.provider_id)).contains p.id = true) :
    (provider_reject_offer cfg st pid offerId now).2 = .request_deleted ∧
    ∀ r ∈ (provider_reject_offer cfg st pid offerId now).1.requests, r.id ≠ req.id := by
  have hmem : offer ∈ st.offers := List.mem_of_find?_eq_some hfind
  have hinj := nodupMapInj (fun o => o.id) st.offers hids
  set newOffer : ProviderOffer :=
    { offer with status := .rejected, responded_at := some now } with hnew
  set st1 : St := updateOffer st newOffer with hst1
  have hoffers1 : st1.offers
      = st.offers.map (fun q => if q.id = offer.id then newOffer else q) := by
    simp [hst1, updateOffer, hnew]
  have hshape : ∀ o2 ∈ offersOfRequest st1 req.id,
      o2 = newOffer ∨ (o2 ∈ st.offers ∧ o2.service_request_id = req.id ∧ o2.id ≠ offer.id) := by
    intro o2 ho2
    unfold offersOfRequest at ho2
    rw [hoffers1] at ho2
    simp only [List.mem_filter, List.mem_map] at ho2
    obtain ⟨⟨o, ho, heq⟩, hfil⟩ := ho2
    by_cases hid : o.id = offer.id
    · left
      rw [if_pos hid] at heq
      exact heq.symm
    · right
      rw [if_neg hid] at heq
      subst heq
      exact ⟨ho, by simpa using hfil, hid⟩
  have hnp1 : (offersOfRequest st1 req.id).any
      (fun o => o.status == OfferStatus.pending) = false := by
    rw [List.any_eq_false]
    intro o2 ho2
    rcases hshape o2 ho2 with rfl | ⟨ho, hs, hid⟩
    · simp [hnew]
    · simpa using hnopending o2 ho hs hid
  have hna1 : (offersOfRequest st1 req.id).any
      (fun o => o.status == OfferStatus.accepted) = false := by
    rw [List.any_eq_false]
    intro o2 ho2
    rcases hshape o2 ho2 with rfl | ⟨ho, hs, hid⟩
    · simp [hnew]
    · simpa using hnoaccepted o2 ho hs
  have hprov1 : st1.providers = st.providers := by simp [hst1, updateOffer]
  have hmapfil : ∀ l : List ProviderOffer, (∀ q ∈ l, q.id = offer.id → q = offer) →
      ((l.map (fun q => if q.id = offer.id then newOffer else q)).filter
          (fun o => o.service_request_id == req.id)).map (fun o => o.provider_id)
        = (l.filter (fun o => o.service_request_id == req.id)).map
            (fun o => o.provider_id) := by
    intro l
    induction l with
    | nil => intro _; rfl
    | cons q l ihl =>
        intro hsub
        have ht := ihl (fun a ha h => hsub a (List.mem_cons_of_mem q ha) h)
        by_cases hid : q.id = offer.id
        · have hq : q = offer := hsub q (List.mem_cons_self q l) hid
          subst hq
          by_cases hs : (q.service_request_id == req.id) = true
          · simp [List.filter_cons, hnew, hs, ht]
          · simp [List.filter_cons, hnew, hs, ht]
        · by_cases hs : (q.service_request_id == req.id) = true
          · simp [List.filter_cons, hid, hs, ht]
          · simp [List.filter_cons, hid, hs, ht]
  have hoffered : (offersOfRequest st1 req.id).map (fun o => o.provider_id)
      = (offersOfRequest st req.id).map (fun o => o.provider_id) := by
    unfold offersOfRequest
    rw [hoffers1]
    exact hmapfil st.offers (fun q hq hid => hinj q hq offer hmem hid)
  have houtc : (dispatch_next_provider_offer cfg st1 req now).2 = .no_candidates ∨
      (dispatch_next_provider_offer cfg st1 req now).2 = .all_contacted := by
    unfold dispatch_next_provider_offer
    rw [hprov1]
    by_cases hg : (build_provider_candidate_groups st.providers req).isEmpty = true
    · rw [if_pos hg]
      left
      rfl
    · rw [if_neg hg]
      right
      rw [hoffered, dispatchWalk_all_contacted cfg st1 req now _ _ hcontacted]
  rcases hdp : dispatch_next_provider_offer cfg st1 req now with ⟨st2, outc⟩
  rw [hdp] at houtc
  unfold provider_reject_offer
  simp only [hfind, hreq]
  rw [← hst1]
  simp only [hnp1, hna1, Bool.false_eq_true, if_false, hdp]
  cases outc with
  | offers_created os => simp at houtc
  | no_candidates => exact ⟨rfl, deleteRequestCascade_no_request st2 req.id⟩
  | all_contacted => exact ⟨rfl, deleteRequestCascade_no_request st2 req.id⟩


/-- Witness for C4: the single-candidate fixture request whose lone provider
rejects is deleted — no request with its id remains. -/
theorem provider_reject_offer_deletes_exhausted_request_witness :
    (provider_reject_offer defaultConfig
        ⟨[fixProviderA], [{ fixRequest with status := .pending_provider }], [fixOffer],
          [], [], 51⟩ 1 50 5).2 = .request_deleted ∧
    (provider_reject_offer defaultConfig
        ⟨[fixProviderA], [{ fixRequest with status := .pending_provider }], [fixOffer],
          [], [], 51⟩ 1 50 5).1.requests = [] := by
  have h := provider_reject_offer_deletes_exhausted_request defaultConfig
    ⟨[fixProviderA], [{ fixRequest with status := .pending_provider }], [fixOffer],
      [], [], 51⟩ 1 50 5 fixOffer { fixRequest with status := .pending_provider }
    (by decide) (by decide) (by decide) (by decide) (by decide) (by decide)
  exact ⟨h.1, by decide⟩

/-- `Rat.floor` agrees with the floor of the `FloorRing` instance. -/
theorem ratFloor_eq_intFloor (q : ℚ) : q.floor = ⌊q⌋ := by
  rw [Rat.floor_def', Rat.floor_def]

/-- `round1` through the `Int.floor` API. -/
theorem round1_eq (x : ℚ) : round1 x = (⌊10 * x + 1 / 2⌋ : ℚ) / 10 := by
  rw [round1, ratFloor_eq_intFloor]

/-- Rounding an integer to one decimal changes nothing. -/
theorem round1_intCast (n : ℤ) : round1 ((n : ℚ)) = n := by
  rw [round1_eq]
  have h : (10 : ℚ) * (n : ℚ) + 1 / 2 = ((10 * n : ℤ) : ℚ) + 1 / 2 := by push_cast; ring
  rw [h, Int.floor_int_add]
  norm_num

/-- `round(0.0, 1) = 0.0`. -/
theorem round1_zero : round1 0 = 0 := by exact_mod_cast round1_intCast 0

/-- `round(10.0, 1) = 10.0`. -/
theorem round1_ten : round1 10 = 10 := by exact_mod_cast round1_intCast 10

/-- Rounding to one decimal is monotone. -/
theorem round1_mono {x y : ℚ} (h : x ≤ y) : round1 x ≤ round1 y := by
  rw [round1_eq, round1_eq]
  have hf : (⌊10 * x + 1 / 2⌋ : ℚ) ≤ (⌊10 * y + 1 / 2⌋ : ℚ) := by
    exact_mod_cast Int.floor_mono (by linarith)
  linarith

/-- Every row of `score_accepted_offers` is `scoreOne` of an input row (the
sort is a permutation). -/
theorem score_accepted_offers_mem (offers : List ScoredOffer) (o2 : ScoredOffer)
    (h : o2 ∈ score_accepted_offers offers) :
    ∃ o ∈ offers, o2 = scoreOne (listMinQ (quoteValues offers))
      (listMaxQ (quoteValues offers)) (maxSequenceOf offers) o := by
  unfold score_accepted_offers at h
  by_cases he : offers.isEmpty = true
  · rw [if_pos he] at h
    simp at h
  · rw [if_neg he] at h
    have hperm := List.perm_insertionSort offerKeyLE
      (offers.map (scoreOne (listMinQ (quoteValues offers))
        (listMaxQ (quoteValues offers)) (maxSequenceOf offers)))
    have hm := hperm.mem_iff.mp h
    obtain ⟨o, ho, heq⟩ := List.mem_map.mp hm
    exact ⟨o, ho, heq.symm⟩

/-- `round(55.0, 1) = 55.0`. -/
theorem round1_fiftyfive : round1 55 = 55 := by exact_mod_cast round1_intCast 55

/-- `round(22.0, 1) = 22.0`. -/
theorem round1_twentytwo : round1 22 = 22 := by exact_mod_cast round1_intCast 22

/-- An offer without a quote amount scores a flat 22 before rounding. -/
theorem priceScore_none (mn mx : Option ℚ) : priceScore mn mx none = 22 := by
  cases mn <;> cases mx <;> rfl

/-- C5 (amended): every scored offer's speed score is 10 exactly when the
maximum `sequence or 1` of the whole set is at most 1; when that maximum
exceeds 1 the speed score is the rounded clamped interpolation
`10 * (max_sequence - sequence) / (max_sequence - 1)` — in particular the
earliest sequence (1) still gets 10, but any offer whose sequence equals
the maximum gets 0, so a set of offers all sharing one sequence value s > 1
gets 0, not the flat 10 the claim states. -/
theorem score_accepted_offers_speed_spec (offers : List ScoredOffer) (o2 : ScoredOffer)
    (h : o2 ∈ score_accepted_offers offers) :
    (maxSequenceOf offers ≤ 1 → o2.speed_score = 10) ∧
    (1 < maxSequenceOf offers →
      o2.speed_score = round1 (max 0 (min 10
        (((maxSequenceOf offers : ℚ) - (seqOr1 o2.sequence : ℚ))
          / ((maxSequenceOf offers : ℚ) - 1) * 10))) ∧
      (seqOr1 o2.sequence = 1 → o2.speed_score = 10) ∧
      (seqOr1 o2.sequence = maxSequenceOf offers → o2.speed_score = 0)) := by
  obtain ⟨o, ho, rfl⟩ := score_accepted_offers_mem offers o2 h
  constructor
  · intro hle
    show round1 (speedScore (maxSequenceOf offers) o.sequence) = 10
    rw [speedScore, if_pos hle, round1_ten]
  · intro hlt
    have hne : ¬ (maxSequenceOf offers ≤ 1) := by omega
    have hm1 : (1 : ℚ) < (maxSequenceOf offers : ℚ) := by exact_mod_cast hlt
    refine ⟨?_, ?_, ?_⟩
    · show round1 (speedScore (maxSequenceOf offers) o.sequence) = _
      rw [speedScore, if_neg hne]
      rfl
    · intro h1
      have h1' : seqOr1 o.sequence = 1 := h1
      show round1 (speedScore (maxSequenceOf offers) o.sequence) = 10
      have hne0 : (maxSequenceOf offers : ℚ) - 1 ≠ 0 := sub_ne_zero.mpr (ne_of_gt hm1)
      rw [speedScore, if_neg hne, h1']
      have hz : ((maxSequenceOf offers : ℚ) - ((1 : ℕ) : ℚ))
          / ((maxSequenceOf offers : ℚ) - 1) * 10 = 10 := by
        rw [Nat.cast_one, div_self hne0, one_mul]
      rw [hz, show max 0 (min 10 (10:ℚ)) = 10 by norm_num, round1_ten]
    · intro hm
      have hm' : seqOr1 o.sequence = maxSequenceOf offers := hm
      show round1 (speedScore (maxSequenceOf offers) o.sequence) = 0
      rw [speedScore, if_neg hne, hm']
      rw [show ((maxSequenceOf offers : ℚ) - (maxSequenceOf offers : ℕ))
          / ((maxSequenceOf offers : ℚ) - 1) * 10 = 0 by
        rw [sub_self, zero_div, zero_mul]]
      rw [show max 0 (min 10 (0:ℚ)) = 0 by norm_num, round1_zero]

/-- Counterexample to C5 as stated: a set of accepted offers all sharing
the single sequence value 2 receives speed score 0, not the flat 10 the
claim asserts for sets sharing one sequence value. -/
theorem speed_score_single_sequence_counterexample :
    score_accepted_offers [fixSpeedOfferC] = [scoreOne none none 2 fixSpeedOfferC] ∧
    (scoreOne none none 2 fixSpeedOfferC).speed_score = 0 ∧
    ¬ (∀ o2 ∈ score_accepted_offers [fixSpeedOfferC], o2.speed_score = 10) := by
  have h1 : score_accepted_offers [fixSpeedOfferC] = [scoreOne none none 2 fixSpeedOfferC] := by
    simp [score_accepted_offers, quoteValues, listMinQ, listMaxQ, maxSequenceOf, seqOr1,
      fixSpeedOfferC, List.insertionSort, List.orderedInsert]
  have h2 : (scoreOne none none 2 fixSpeedOfferC).speed_score = 0 := by
    have hs : speedScore 2 2 = 0 := by norm_num [speedScore, seqOr1]
    calc (scoreOne none none 2 fixSpeedOfferC).speed_score
        = round1 (speedScore 2 2) := rfl
      _ = round1 0 := by rw [hs]
      _ = 0 := round1_zero
  refine ⟨h1, h2, ?_⟩
  intro hall
  have := hall _ (h1 ▸ List.mem_singleton_self (scoreOne none none 2 fixSpeedOfferC))
  rw [h2] at this
  norm_num at this

/-- Witness for C5 (amended): with a single sequence-1 offer the speed
score is the flat 10; with a single sequence-3 offer (the maximum) it is 0. -/
theorem score_accepted_offers_speed_spec_witness :
    scoreOne none none 1 fixSpeedOfferA ∈ score_accepted_offers [fixSpeedOfferA] ∧
    (scoreOne none none 1 fixSpeedOfferA).speed_score = 10 ∧
    scoreOne none none 3 fixSpeedOfferB ∈ score_accepted_offers [fixSpeedOfferB] ∧
    (scoreOne none none 3 fixSpeedOfferB).speed_score = 0 := by
  have hA : score_accepted_offers [fixSpeedOfferA] = [scoreOne none none 1 fixSpeedOfferA] := by
    simp [score_accepted_offers, quoteValues, listMinQ, listMaxQ, maxSequenceOf, seqOr1,
      fixSpeedOfferA, List.insertionSort, List.orderedInsert]
  have hB : score_accepted_offers [fixSpeedOfferB] = [scoreOne none none 3 fixSpeedOfferB] := by
    simp [score_accepted_offers, quoteValues, listMinQ, listMaxQ, maxSequenceOf, seqOr1,
      fixSpeedOfferB, List.insertionSort, List.orderedInsert]
  have hmA : scoreOne none none 1 fixSpeedOfferA ∈ score_accepted_offers [fixSpeedOfferA] :=
    hA ▸ List.mem_singleton_self _
  have hmB : scoreOne none none 3 fixSpeedOfferB ∈ score_accepted_offers [fixSpeedOfferB] :=
    hB ▸ List.mem_singleton_self _
  exact ⟨hmA, (score_accepted_offers_speed_spec [fixSpeedOfferA] _ hmA).1 (by decide), hmB,
    (((score_accepted_offers_speed_spec [fixSpeedOfferB] _ hmB).2 (by decide)).2.2 (by decide))⟩

/-- C8: the price score is a flat 22 for an offer without a quote; for a
quoted offer it is 55 when the minimum and maximum quote coincide and
otherwise the rounded clamp of `55 * (1 - (quote - min)/(max - min))`; and
for two accepted offers quoting 950 and 1800 with equal rating and
sequence, the 950 offer scores price 55, the 1800 offer price 0, and the
950 offer's comparison score is at least the 1800 offer's. -/
theorem score_accepted_offers_price_spec :
    (∀ (offers : List ScoredOffer) (o2 : ScoredOffer), o2 ∈ score_accepted_offers offers →
      (o2.quote_amount = none → o2.price_score = 22) ∧
      (∀ qv mn mx : ℚ, o2.quote_amount = some qv →
        listMinQ (quoteValues offers) = some mn →
        listMaxQ (quoteValues offers) = some mx →
        o2.price_score = if mx = mn then 55
          else round1 (max 0 (min 55 (55 * (1 - (qv - mn) / (mx - mn))))))) ∧
    (∀ (s : Nat) (rt : ℚ) (o1 o2 : ScoredOffer),
      o1 ∈ score_accepted_offers [mkQuoteOffer 1 950 s rt, mkQuoteOffer 2 1800 s rt] →
      o2 ∈ score_accepted_offers [mkQuoteOffer 1 950 s rt, mkQuoteOffer 2 1800 s rt] →
      o1.offerId = 1 → o2.offerId = 2 →
      o1.price_score = 55 ∧ o2.price_score = 0 ∧
        o2.comparison_score ≤ o1.comparison_score) := by
  constructor
  · intro offers o2 h
    obtain ⟨o, ho, rfl⟩ := score_accepted_offers_mem offers o2 h
    constructor
    · intro hnone
      have hnone' : o.quote_amount = none := hnone
      show round1 (priceScore (listMinQ (quoteValues offers)) (listMaxQ (quoteValues offers))
        o.quote_amount) = 22
      rw [hnone', priceScore_none, round1_twentytwo]
    · intro qv mn mx hq hmn hmx
      have hq' : o.quote_amount = some qv := hq
      show round1 (priceScore (listMinQ (quoteValues offers)) (listMaxQ (quoteValues offers))
        o.quote_amount) = _
      rw [hq', hmn, hmx]
      show round1 (if mx = mn then (55 : ℚ)
        else max 0 (min 55 (55 * (1 - (qv - mn) / (mx - mn))))) = _
      by_cases heq : mx = mn
      · rw [if_pos heq, if_pos heq, round1_fiftyfive]
      · rw [if_neg heq, if_neg heq]
  · intro s rt o1 o2 h1 h2 hid1 hid2
    have hmn : listMinQ (quoteValues [mkQuoteOffer 1 950 s rt, mkQuoteOffer 2 1800 s rt])
        = some 950 := by
      show some (min (950 : ℚ) 1800) = some 950
      norm_num
    have hmx : listMaxQ (quoteValues [mkQuoteOffer 1 950 s rt, mkQuoteOffer 2 1800 s rt])
        = some 1800 := by
      show some (max (950 : ℚ) 1800) = some 1800
      norm_num
    obtain ⟨a, ha, rfl⟩ := score_accepted_offers_mem _ o1 h1
    obtain ⟨b, hb, rfl⟩ := score_accepted_offers_mem _ o2 h2
    have ha' : a = mkQuoteOffer 1 950 s rt := by
      have hida : a.offerId = 1 := hid1
      rcases List.mem_cons.mp ha with rfl | ha2
      · rfl
      · rcases List.mem_cons.mp ha2 with rfl | ha3
        · exact absurd hida (by simp [mkQuoteOffer])
        · simp at ha3
    have hb' : b = mkQuoteOffer 2 1800 s rt := by
      have hidb : b.offerId = 2 := hid2
      rcases List.mem_cons.mp hb with rfl | hb2
      · exact absurd hidb (by simp [mkQuoteOffer])
      · rcases List.mem_cons.mp hb2 with rfl | hb3
        · rfl
        · simp at hb3
    subst ha' hb'
    have hp1 : priceScore (some 950) (some 1800) (some 950) = 55 := by
      show (if (1800 : ℚ) = 950 then (55 : ℚ)
        else max 0 (min 55 (55 * (1 - ((950 : ℚ) - 950) / (1800 - 950))))) = 55
      norm_num
    have hp2 : priceScore (some 950) (some 1800) (some 1800) = 0 := by
      show (if (1800 : ℚ) = 950 then (55 : ℚ)
        else max 0 (min 55 (55 * (1 - ((1800 : ℚ) - 950) / (1800 - 950))))) = 0
      norm_num
    refine ⟨?_, ?_, ?_⟩
    · show round1 (priceScore (listMinQ (quoteValues _)) (listMaxQ (quoteValues _))
        (some 950)) = 55
      rw [hmn, hmx, hp1, round1_fiftyfive]
    · show round1 (priceScore (listMinQ (quoteValues _)) (listMaxQ (quoteValues _))
        (some 1800)) = 0
      rw [hmn, hmx, hp2, round1_zero]
    · show round1 (round1 (priceScore (listMinQ (quoteValues _)) (listMaxQ (quoteValues _))
          (some 1800)) + round1 (ratingScore rt)
          + round1 (speedScore (maxSequenceOf _) s)) ≤
        round1 (round1 (priceScore (listMinQ (quoteValues _)) (listMaxQ (quoteValues _))
          (some 950)) + round1 (ratingScore rt)
          + round1 (speedScore (maxSequenceOf _) s))
      rw [hmn, hmx, hp1, hp2, round1_fiftyfive, round1_zero]
      exact round1_mono (by linarith)

/-- Witness for C8: at rating 5 and sequence 1 the scored 950-quote row has
price 55 and the scored 1800-quote row price 0, with comparison dominance. -/
theorem score_accepted_offers_price_spec_witness :
    fixScoredQuote1 ∈ score_accepted_offers fixQuoteOffers ∧
    fixScoredQuote2 ∈ score_accepted_offers fixQuoteOffers ∧
    fixScoredQuote1.price_score = 55 ∧ fixScoredQuote2.price_score = 0 ∧
    fixScoredQuote2.comparison_score ≤ fixScoredQuote1.comparison_score := by
  have hne : fixQuoteOffers.isEmpty = false := by decide
  have hm1 : fixScoredQuote1 ∈ score_accepted_offers fixQuoteOffers := by
    unfold score_accepted_offers
    rw [hne]
    exact (List.perm_insertionSort offerKeyLE _).mem_iff.mpr
      (List.mem_map_of_mem _ (by simp [fixQuoteOffers]))
  have hm2 : fixScoredQuote2 ∈ score_accepted_offers fixQuoteOffers := by
    unfold score_accepted_offers
    rw [hne]
    exact (List.perm_insertionSort offerKeyLE _).mem_iff.mpr
      (List.mem_map_of_mem _ (by simp [fixQuoteOffers]))
  have h := score_accepted_offers_price_spec.2 1 5 fixScoredQuote1 fixScoredQuote2
    hm1 hm2 rfl rfl
  exact ⟨hm1, hm2, h.1, h.2.1, h.2.2⟩


/-- Pointwise-equal functions map lists equally. -/
theorem mapCongrOn {α β : Type} (f g : α → β) :
    ∀ l : List α, (∀ a ∈ l, f a = g a) → l.map f = l.map g := by
  intro l
  induction l with
  | nil => intro _; rfl
  | cons x xs ih =>
      intro h
      simp only [List.map_cons, h x (List.mem_cons_self x xs),
        ih (fun a ha => h a (List.mem_cons_of_mem x ha))]

/-- Ledger sums distribute over appended transaction batches. -/
theorem txnSum_append (st : St) (ts : List CreditTransaction) (pid : Nat) :
    txnSum { st with txns := st.txns ++ ts } pid
      = txnSum st pid + txnSum { st with txns := ts } pid := by
  simp [txnSum, List.filter_append, List.sum_append]

/-- The ledger sum of a single row. -/
theorem txnSum_single (st : St) (t : CreditTransaction) (pid : Nat) :
    txnSum { st with txns := [t] } pid = if t.provider_id = pid then t.amount else 0 := by
  by_cases h : t.provider_id = pid
  · simp [txnSum, List.filter_cons, h]
  · simp [txnSum, List.filter_cons, h]

/-- Persisting a wallet row never changes the set of wallet owners. -/
theorem storeWallet_ids (st : St) (w1 : ProviderWallet) :
    (storeWallet st w1).wallets.map (fun w => w.provider_id)
      = st.wallets.map (fun w => w.provider_id) := by
  simp only [storeWallet, List.map_map]
  apply mapCongrOn
  intro x _
  by_cases h : x.provider_id = w1.provider_id
  · simp [Function.comp, h]
  · simp [Function.comp, h]

/-- Wallet lookup commutes with the row update of `storeWallet`. -/
theorem find?_storeList (l : List ProviderWallet) (w1 : ProviderWallet) (pid : Nat) :
    (l.map (fun x => if x.provider_id = w1.provider_id then w1 else x)).find?
        (fun w => w.provider_id == pid)
      = (l.find? (fun w => w.provider_id == pid)).map
          (fun x => if x.provider_id = w1.provider_id then w1 else x) := by
  induction l with
  | nil => rfl
  | cons x xs ih =>
      have hmapped : ((if x.provider_id = w1.provider_id then w1 else x).provider_id == pid)
          = (x.provider_id == pid) := by
        by_cases hw : x.provider_id = w1.provider_id
        · simp [hw]
        · simp [hw]
      rw [List.map_cons, List.find?_cons, List.find?_cons, hmapped]
      cases h : (x.provider_id == pid) with
      | true => rfl
      | false => exact ih

/-- Writing a new balance together with its matching ledger row preserves
the ledger invariant. -/
theorem walletInv_post (st : St) (w w1 : ProviderWallet) (t : CreditTransaction)
    (hfw : findWallet st t.provider_id = some w)
    (hw1pid : w1.provider_id = w.provider_id)
    (htpid : t.provider_id = w.provider_id)
    (hbal : w1.balance = w.balance + t.amount)
    (h : WalletLedgerInv st) :
    WalletLedgerInv { (storeWallet st w1) with txns := st.txns ++ [t] } := by
  have hwpid : w.provider_id = t.provider_id := htpid.symm
  constructor
  · show ((storeWallet st w1).wallets.map (fun w => w.provider_id)).Nodup
    rw [storeWallet_ids]
    exact h.1
  · intro pid2
    have hsum : txnSum { (storeWallet st w1) with txns := st.txns ++ [t] } pid2
        = txnSum st pid2 + (if t.provider_id = pid2 then t.amount else 0) := by
      have h1 : txnSum { (storeWallet st w1) with txns := st.txns ++ [t] } pid2
          = txnSum { st with txns := st.txns ++ [t] } pid2 := rfl
      rw [h1, txnSum_append, txnSum_single]
    have hbalance : walletBalance { (storeWallet st w1) with txns := st.txns ++ [t] } pid2
        = walletBalance (storeWallet st w1) pid2 := rfl
    rw [hsum, hbalance]
    have hstore : findWallet (storeWallet st w1) pid2
        = (findWallet st pid2).map
            (fun x => if x.provider_id = w1.provider_id then w1 else x) := by
      show ((st.wallets.map (fun x => if x.provider_id = w1.provider_id then w1 else x)).find?
          (fun w => w.provider_id == pid2)) = _
      exact find?_storeList st.wallets w1 pid2
    by_cases hp : t.provider_id = pid2
    · subst hp
      rw [if_pos rfl]
      have : walletBalance (storeWallet st w1) t.provider_id = w1.balance := by
        rw [walletBalance, hstore, hfw]
        simp [hw1pid]
      rw [this, hbal]
      have hob : walletBalance st t.provider_id = w.balance := by
        rw [walletBalance, hfw]
      rw [h.2 t.provider_id, hob]
    · rw [if_neg hp, add_zero]
      have hkeep : walletBalance (storeWallet st w1) pid2 = walletBalance st pid2 := by
        rw [walletBalance, walletBalance, hstore]
        cases hf : findWallet st pid2 with
        | none => rfl
        | some x =>
            have hx : x.provider_id = pid2 := by
              have := List.find?_some hf
              simpa using this
            have hxne : x.provider_id ≠ w1.provider_id := by
              rw [hx, hw1pid, hwpid]
              exact fun hh => hp hh.symm
            simp [hxne]
      rw [hkeep]
      exact h.2 pid2

/-- Wallet lookup over an appended row. -/
theorem findWallet_append (st : St) (w0 : ProviderWallet) (pid2 : Nat) :
    (st.wallets ++ [w0]).find? (fun w => w.provider_id == pid2)
      = ((st.wallets.find? (fun w => w.provider_id == pid2)).or
          (if w0.provider_id == pid2 then some w0 else none)) := by
  rw [List.find?_append]
  congr 1
  rw [List.find?_cons]
  cases h : (w0.provider_id == pid2) with
  | true => rfl
  | false => rfl

/-- Lazy wallet creation preserves the ledger invariant (the welcome grant
is itself ledgered), and afterwards the provider's wallet is the returned
one. -/
theorem walletInv_get_or_create (cfg : Config) (st : St) (pid : Nat)
    (h : WalletLedgerInv st) :
    WalletLedgerInv (get_or_create_provider_wallet cfg st pid).1 ∧
    findWallet (get_or_create_provider_wallet cfg st pid).1 pid
      = some (get_or_create_provider_wallet cfg st pid).2 ∧
    (get_or_create_provider_wallet cfg st pid).2.provider_id = pid := by
  cases hfw : findWallet st pid with
  | some w =>
      have hres : get_or_create_provider_wallet cfg st pid = (st, w) := by
        unfold get_or_create_provider_wallet
        rw [hfw]
      rw [hres]
      refine ⟨h, hfw, ?_⟩
      have := List.find?_some hfw
      simpa using this
  | none =>
      have hnotin : ∀ x ∈ st.wallets, x.provider_id ≠ pid := by
        intro x hx
        have := List.find?_eq_none.mp hfw x hx
        simpa using this
      have hinit : 0 ≤ get_initial_provider_credits cfg := le_max_left 0 _
      have hnodup : ((st.wallets ++ [(⟨pid, get_initial_provider_credits cfg⟩ : ProviderWallet)]).map (fun w => w.provider_id)).Nodup := by
        rw [List.map_append]
        refine List.nodup_append.mpr ⟨h.1, by simp, ?_⟩
        intro a ha hb
        obtain ⟨x, hx, hxa⟩ := List.mem_map.mp ha
        simp only [List.map_cons, List.map_nil, List.mem_singleton] at hb
        exact hnotin x hx (by rw [hxa, hb])
      have hfindpid : ((st.wallets ++ [(⟨pid, get_initial_provider_credits cfg⟩ : ProviderWallet)]).find? (fun w => w.provider_id == pid)) = some (⟨pid, get_initial_provider_credits cfg⟩ : ProviderWallet) := by
        rw [findWallet_append st (⟨pid, get_initial_provider_credits cfg⟩ : ProviderWallet) pid]
        rw [show st.wallets.find? (fun w => w.provider_id == pid) = none from hfw]
        simp
      have hfindother : ∀ pid2 : Nat, pid2 ≠ pid → ((st.wallets ++ [(⟨pid, get_initial_provider_credits cfg⟩ : ProviderWallet)]).find? (fun w => w.provider_id == pid2)) = st.wallets.find? (fun w => w.provider_id == pid2) := by
        intro pid2 hne
        rw [findWallet_append st (⟨pid, get_initial_provider_credits cfg⟩ : ProviderWallet) pid2]
        rw [show ((⟨pid, get_initial_provider_credits cfg⟩ : ProviderWallet).provider_id == pid2) = false by simp [Ne.symm hne]]
        simp
      have hwb0 : walletBalance st pid = 0 := by
        rw [walletBalance, hfw]
      by_cases hpos : get_initial_provider_credits cfg > 0
      · have hres : get_or_create_provider_wallet cfg st pid = ({ st with wallets := st.wallets ++ [(⟨pid, get_initial_provider_credits cfg⟩ : ProviderWallet)], txns := st.txns ++ [(⟨pid, "welcome", get_initial_provider_credits cfg, get_initial_provider_credits cfg, none⟩ : CreditTransaction)] }, (⟨pid, get_initial_provider_credits cfg⟩ : ProviderWallet)) := by
          unfold get_or_create_provider_wallet
          rw [hfw, if_pos hpos]
        rw [hres]
        refine ⟨⟨hnodup, ?_⟩, hfindpid, rfl⟩
        intro pid2
        have hsum : txnSum ({ st with wallets := st.wallets ++ [(⟨pid, get_initial_provider_credits cfg⟩ : ProviderWallet)], txns := st.txns ++ [(⟨pid, "welcome", get_initial_provider_credits cfg, get_initial_provider_credits cfg, none⟩ : CreditTransaction)] } : St) pid2 = txnSum st pid2 + (if pid = pid2 then get_initial_provider_credits cfg else 0) := by
          have h1 := txnSum_append st [(⟨pid, "welcome", get_initial_provider_credits cfg, get_initial_provider_credits cfg, none⟩ : CreditTransaction)] pid2
          have h2 := txnSum_single st (⟨pid, "welcome", get_initial_provider_credits cfg, get_initial_provider_credits cfg, none⟩ : CreditTransaction) pid2
          exact h1.trans (by rw [h2])
        rw [hsum]
        by_cases hp : pid2 = pid
        · rw [hp, if_pos rfl, walletBalance, show findWallet ({ st with wallets := st.wallets ++ [(⟨pid, get_initial_provider_credits cfg⟩ : ProviderWallet)], txns := st.txns ++ [(⟨pid, "welcome", get_initial_provider_credits cfg, get_initial_provider_credits cfg, none⟩ : CreditTransaction)] } : St) pid = some (⟨pid, get_initial_provider_credits cfg⟩ : ProviderWallet) from hfindpid, h.2 pid, hwb0]
          simp
        · rw [if_neg (fun hh => hp hh.symm), add_zero, walletBalance, show findWallet ({ st with wallets := st.wallets ++ [(⟨pid, get_initial_provider_credits cfg⟩ : ProviderWallet)], txns := st.txns ++ [(⟨pid, "welcome", get_initial_provider_credits cfg, get_initial_provider_credits cfg, none⟩ : CreditTransaction)] } : St) pid2 = st.wallets.find? (fun w => w.provider_id == pid2) from hfindother pid2 hp]
          exact h.2 pid2
      · have hzero : get_initial_provider_credits cfg = 0 := by omega
        have hres : get_or_create_provider_wallet cfg st pid = ({ st with wallets := st.wallets ++ [(⟨pid, get_initial_provider_credits cfg⟩ : ProviderWallet)] }, (⟨pid, get_initial_provider_credits cfg⟩ : ProviderWallet)) := by
          unfold get_or_create_provider_wallet
          rw [hfw, if_neg hpos]
        rw [hres]
        refine ⟨⟨hnodup, ?_⟩, hfindpid, rfl⟩
        intro pid2
        have hsum : txnSum ({ st with wallets := st.wallets ++ [(⟨pid, get_initial_provider_credits cfg⟩ : ProviderWallet)] } : St) pid2 = txnSum st pid2 := rfl
        rw [hsum]
        by_cases hp : pid2 = pid
        · rw [hp, walletBalance, show findWallet ({ st with wallets := st.wallets ++ [(⟨pid, get_initial_provider_credits cfg⟩ : ProviderWallet)] } : St) pid = some (⟨pid, get_initial_provider_credits cfg⟩ : ProviderWallet) from hfindpid, h.2 pid, hwb0, hzero]
        · rw [walletBalance, show findWallet ({ st with wallets := st.wallets ++ [(⟨pid, get_initial_provider_credits cfg⟩ : ProviderWallet)] } : St) pid2 = st.wallets.find? (fun w => w.provider_id == pid2) from hfindother pid2 hp]
          exact h.2 pid2

/-- `apply_wallet_transaction` preserves the ledger invariant on every
branch. -/
theorem walletInv_apply (cfg : Config) (st : St) (pid : Nat) (amount : Int)
    (ttype : String) (ref : Option Nat) (h : WalletLedgerInv st) :
    WalletLedgerInv (apply_wallet_transaction cfg st pid amount ttype ref).1 := by
  unfold apply_wallet_transaction
  obtain ⟨h1, h2, h3⟩ := walletInv_get_or_create cfg st pid h
  rcases hres : get_or_create_provider_wallet cfg st pid with ⟨st1, wallet⟩
  rw [hres] at h1 h2 h3
  simp only [hres]
  by_cases hneg : wallet.balance + amount < 0
  · rw [if_pos hneg]
    exact h1
  · rw [if_neg hneg]
    exact walletInv_post st1 wallet { wallet with balance := wallet.balance + amount }
      ⟨pid, ttype, amount, wallet.balance + amount, ref⟩ h2 rfl h3.symm rfl h1

/-- `provider_accept_offer` preserves the ledger invariant on every branch
(the quote-fee debit is ledgered atomically). -/
theorem walletInv_accept (cfg : Config) (st : St) (pid oid : Nat) (q : Option ℚ)
    (note : String) (now : Nat) (h : WalletLedgerInv st) :
    WalletLedgerInv (provider_accept_offer cfg st pid oid q note now).1 := by
  unfold provider_accept_offer
  split
  · exact h
  next offer hfo =>
    split
    · exact h
    next req hfr =>
      split
      · exact h
      · split
        · exact h
        · split
          · exact h
          next qq =>
            split
            · exact h
            · split
              next st1 wallet heq =>
                obtain ⟨h1, h2, h3⟩ := walletInv_get_or_create cfg st pid h
                rw [heq] at h1 h2 h3
                dsimp only
                split
                · exact h1
                · exact walletInv_post (updateOffer st1 { offer with status := OfferStatus.accepted, responded_at := some now, quote_amount := some qq, quote_note := note.take 240 }) wallet { wallet with balance := wallet.balance - get_quote_credit_cost cfg } ⟨pid, "quote_fee", -(get_quote_credit_cost cfg), wallet.balance - get_quote_credit_cost cfg, some offer.id⟩ h2 rfl h3.symm rfl h1

/-- Every wallet-touching operation preserves the ledger invariant. -/
theorem walletInv_step (cfg : Config) (st : St) (op : WalletOp)
    (h : WalletLedgerInv st) : WalletLedgerInv (walletStep cfg st op) := by
  cases op with
  | touch pid => exact (walletInv_get_or_create cfg st pid h).1
  | applyTxn pid amount t ref => exact walletInv_apply cfg st pid amount t ref h
  | acceptOffer pid oid qq note now => exact walletInv_accept cfg st pid oid qq note now h

/-- C2 (amended): (1) after any sequence of wallet operations — lazy wallet
creation with the welcome grant, apply_wallet_transaction, the quote-fee
debit inside provider_accept_offer — every provider's ledger amounts sum to
their wallet balance; (2) apply_wallet_transaction on a provider whose
wallet already exists, with an amount that would drive the balance
negative, fails and returns the state completely unchanged. (When the
wallet does not exist yet, the lazy creation together with its welcome
ledger row persists even on failure — see the counterexample.) -/
theorem wallet_ledger_invariant_and_failure_noop :
    (∀ (cfg : Config) (ops : List WalletOp) (st : St), WalletLedgerInv st →
      WalletLedgerInv (ops.foldl (walletStep cfg) st)) ∧
    (∀ (cfg : Config) (st : St) (pid : Nat) (amount : Int) (ttype : String)
        (ref : Option Nat) (w : ProviderWallet),
      findWallet st pid = some w → w.balance + amount < 0 →
      apply_wallet_transaction cfg st pid amount ttype ref = (st, none)) := by
  constructor
  · intro cfg ops
    induction ops with
    | nil => intro st h; exact h
    | cons op ops ih =>
        intro st h
        exact ih _ (walletInv_step cfg st op h)
  · intro cfg st pid amount ttype ref w hfw hneg
    unfold apply_wallet_transaction
    have hres : get_or_create_provider_wallet cfg st pid = (st, w) := by
      unfold get_or_create_provider_wallet
      rw [hfw]
    simp only [hres]
    rw [if_pos hneg]

/-- Counterexample to C2 as stated: a failing apply_wallet_transaction for
a provider without a wallet still writes a ledger row — the lazy creation's
welcome grant commits (views.py returns None inside the atomic block, which
commits), so the claim that a rejected transaction writes no ledger row is
false. -/
theorem apply_wallet_transaction_failure_writes_welcome_row :
    (apply_wallet_transaction defaultConfig ⟨[], [], [], [], [], 0⟩ 1 (-11)
        "purchase" none).2 = none ∧
    (apply_wallet_transaction defaultConfig ⟨[], [], [], [], [], 0⟩ 1 (-11)
        "purchase" none).1.txns = [⟨1, "welcome", 10, 10, none⟩] ∧
    (⟨[], [], [], [], [], 0⟩ : St).txns = [] := by
  decide

/-- Witness for C2 (amended): the invariant holds along a concrete
touch/purchase/failed-debit sequence from the empty store, and a failing
debit against an existing wallet leaves the state unchanged. -/
theorem wallet_ledger_invariant_and_failure_noop_witness :
    WalletLedgerInv (⟨[], [], [], [], [], 0⟩ : St) ∧
    WalletLedgerInv ([WalletOp.touch 1, WalletOp.applyTxn 1 25 "package_basic" none,
        WalletOp.applyTxn 1 (-30) "purchase" none].foldl (walletStep defaultConfig)
        (⟨[], [], [], [], [], 0⟩ : St)) ∧
    apply_wallet_transaction defaultConfig (⟨[], [], [], [⟨1, 5⟩], [], 0⟩ : St) 1 (-6)
        "purchase" none = ((⟨[], [], [], [⟨1, 5⟩], [], 0⟩ : St), none) := by
  have hinv : WalletLedgerInv (⟨[], [], [], [], [], 0⟩ : St) :=
    ⟨List.nodup_nil, fun _ => rfl⟩
  refine ⟨hinv, wallet_ledger_invariant_and_failure_noop.1 defaultConfig _ _ hinv, ?_⟩
  exact wallet_ledger_invariant_and_failure_noop.2 defaultConfig _ 1 (-6) "purchase" none ⟨1, 5⟩ (by decide) (by decide)


/-- The name comparison is total. -/
theorem nameLeB_total : ∀ a b : List Char, nameLeB a b = true ∨ nameLeB b a = true := by
  intro a
  induction a with
  | nil => intro b; left; rfl
  | cons x xs ih =>
      intro b
      cases b with
      | nil => right; rfl
      | cons y ys =>
          rcases lt_trichotomy x y with hxy | hxy | hxy
          · left; simp [nameLeB, hxy]
          · subst hxy
            rcases ih ys with h | h
            · left; simp [nameLeB, lt_irrefl, h]
            · right; simp [nameLeB, lt_irrefl, h]
          · right; simp [nameLeB, hxy]

/-- The name comparison is transitive. -/
theorem nameLeB_trans : ∀ a b c : List Char, nameLeB a b = true → nameLeB b c = true →
    nameLeB a c = true := by
  intro a
  induction a with
  | nil => intro b c _ _; rfl
  | cons x xs ih =>
      intro b c hab hbc
      cases b with
      | nil => exact absurd hab (by simp [nameLeB])
      | cons y ys =>
          cases c with
          | nil => exact absurd hbc (by simp [nameLeB])
          | cons z zs =>
              rw [nameLeB] at hab hbc ⊢
              by_cases hxy : x < y
              · by_cases hyz : y < z
                · rw [if_pos (lt_trans hxy hyz)]
                · by_cases hzy : z < y
                  · rw [if_neg hyz, if_pos hzy] at hbc
                    exact absurd hbc (by simp)
                  · have heq : y = z := le_antisymm (not_lt.mp hzy) (not_lt.mp hyz)
                    subst heq
                    rw [if_pos hxy]
              · by_cases hyx : y < x
                · rw [if_neg hxy, if_pos hyx] at hab
                  exact absurd hab (by simp)
                · have heq : x = y := le_antisymm (not_lt.mp hyx) (not_lt.mp hxy)
                  subst heq
                  by_cases hxz : x < z
                  · rw [if_pos hxz]
                  · by_cases hzx : z < x
                    · rw [if_neg hxz, if_pos hzx] at hbc
                      exact absurd hbc (by simp)
                    · have heq2 : x = z := le_antisymm (not_lt.mp hzx) (not_lt.mp hxz)
                      subst heq2
                      rw [if_neg hxy, if_neg hxy] at hab
                      rw [if_neg hxz, if_neg hzx] at hbc
                      rw [if_neg hxz, if_neg hzx]
                      exact ih ys zs hab hbc

/-- The Django sort key is a total preorder. -/
instance : IsTotal Provider providerOrder := by
  constructor
  intro p q
  rcases lt_trichotomy p.rating q.rating with h | h | h
  · right; exact Or.inl h
  · rcases nameLeB_total p.full_name.data q.full_name.data with hn | hn
    · left; exact Or.inr ⟨h, hn⟩
    · right; exact Or.inr ⟨h.symm, hn⟩
  · left; exact Or.inl h

/-- The Django sort key is transitive. -/
instance : IsTrans Provider providerOrder := by
  constructor
  intro p q r hpq hqr
  rcases hpq with h1 | ⟨h1, hn1⟩
  · rcases hqr with h2 | ⟨h2, hn2⟩
    · exact Or.inl (lt_trans h2 h1)
    · exact Or.inl (h2 ▸ h1)
  · rcases hqr with h2 | ⟨h2, hn2⟩
    · exact Or.inl (by rw [h1]; exact h2)
    · exact Or.inr ⟨h1.trans h2, nameLeB_trans _ _ _ hn1 hn2⟩

/-- Sorting permutes the provider list. -/
theorem sortProviders_perm (l : List Provider) : (sortProviders l).Perm l :=
  List.perm_insertionSort providerOrder l

/-- Sorting yields a list ordered by rating descending then name
ascending. -/
theorem sortProviders_sorted (l : List Provider) :
    List.Pairwise providerOrder (sortProviders l) :=
  List.sorted_insertionSort providerOrder l

/-- Pointwise-equal predicates filter lists equally. -/
theorem filterCongrOn {α : Type} (p q : α → Bool) :
    ∀ l : List α, (∀ a ∈ l, p a = q a) → l.filter p = l.filter q := by
  intro l
  induction l with
  | nil => intro _; rfl
  | cons x xs ih =>
      intro h
      have hx := h x (List.mem_cons_self x xs)
      simp only [List.filter_cons, hx, ih (fun a ha => h a (List.mem_cons_of_mem x ha))]

/-- C9 (amended): with distinct provider ids, every tier of
`build_provider_candidate_groups` is sorted by rating descending then name
ascending; a sentinel-district ("Herhangi") request always yields exactly
one tier holding precisely the eligible providers — even when that tier is
empty, so the result is `[[]]` rather than `[]` when nobody is eligible;
for any other district the result is the district-exact tier followed by
the remaining-city tier, empty tiers omitted, and it is empty exactly when
no provider is eligible. -/
theorem build_provider_candidate_groups_spec (ps : List Provider) (r : ServiceRequest)
    (hids : (ps.map (fun p => p.id)).Nodup) :
    (∀ g ∈ build_provider_candidate_groups ps r, List.Pairwise providerOrder g) ∧
    (r.district = ANY_DISTRICT_VALUE →
      ∃ t, build_provider_candidate_groups ps r = [t] ∧
        t.Perm (ps.filter (isEligible r))) ∧
    (r.district ≠ ANY_DISTRICT_VALUE →
      ∃ t1 t2,
        build_provider_candidate_groups ps r
          = (if t1.isEmpty then [] else [t1]) ++ (if t2.isEmpty then [] else [t2]) ∧
        t1.Perm ((ps.filter (isEligible r)).filter
          (fun p => iexact p.district r.district)) ∧
        t2.Perm ((ps.filter (isEligible r)).filter
          (fun p => !(iexact p.district r.district))) ∧
        (build_provider_candidate_groups ps r = [] ↔ ps.filter (isEligible r) = [])) := by
  by_cases hd : r.district = ANY_DISTRICT_VALUE
  · have hgs : build_provider_candidate_groups ps r
        = [sortProviders (ps.filter (isEligible r))] := by
      rw [build_provider_candidate_groups, if_pos hd]
    refine ⟨?_, fun _ => ⟨sortProviders (ps.filter (isEligible r)), hgs,
      sortProviders_perm _⟩, fun hne => absurd hd hne⟩
    intro g hg
    rw [hgs] at hg
    rcases List.mem_singleton.mp hg with rfl
    exact sortProviders_sorted _
  · set base := ps.filter (isEligible r) with hbase
    set t1 := sortProviders (base.filter (fun p => iexact p.district r.district)) with ht1
    set t2 := sortProviders (base.filter
      (fun p => !(t1.any (fun q => q.id == p.id)))) with ht2
    have hgs : build_provider_candidate_groups ps r
        = (if t1.isEmpty then [] else [t1]) ++ (if t2.isEmpty then [] else [t2]) := by
      rw [build_provider_candidate_groups, if_neg hd]
    have hbasesub : ∀ p ∈ base, p ∈ ps := fun p hp => (List.mem_filter.mp hp).1
    have hinj := nodupMapInj (fun p => p.id) ps hids
    have hcong : ∀ p ∈ base, (!(t1.any (fun q => q.id == p.id)))
        = (!(iexact p.district r.district)) := by
      intro p hp
      congr 1
      rw [Bool.eq_iff_iff]
      constructor
      · intro hany
        obtain ⟨q, hq, hqid⟩ := List.any_eq_true.mp hany
        have hq1 : q ∈ base.filter (fun p => iexact p.district r.district) :=
          (sortProviders_perm _).subset hq
        have hq2 := List.mem_filter.mp hq1
        have : q = p := hinj q (hbasesub q hq2.1) p (hbasesub p hp) (by simpa using hqid)
        exact this ▸ hq2.2
      · intro hdm
        refine List.any_eq_true.mpr ⟨p, ?_, by simp⟩
        exact (sortProviders_perm _).mem_iff.mpr (List.mem_filter.mpr ⟨hp, hdm⟩)
    have ht2perm : t2.Perm (base.filter (fun p => !(iexact p.district r.district))) := by
      rw [ht2, filterCongrOn _ _ base hcong]
      exact sortProviders_perm _
    have ht1perm : t1.Perm (base.filter (fun p => iexact p.district r.district)) :=
      sortProviders_perm _
    have hiff : build_provider_candidate_groups ps r = [] ↔ base = [] := by
      rw [hgs]
      constructor
      · intro hnil
        have happ := List.append_eq_nil.mp hnil
        have h1nil : t1 = [] := by
          by_cases he : t1.isEmpty
          · exact List.isEmpty_iff.mp he
          · rw [if_neg he] at happ
            exact absurd happ.1 (by simp)
        have h2nil : t2 = [] := by
          by_cases he : t2.isEmpty
          · exact List.isEmpty_iff.mp he
          · rw [if_neg he] at happ
            exact absurd happ.2 (by simp)
        have hf1 : base.filter (fun p => iexact p.district r.district) = [] :=
          ((h1nil ▸ ht1perm).symm).eq_nil
        have hf2 : base.filter (fun p => !(iexact p.district r.district)) = [] :=
          ((h2nil ▸ ht2perm).symm).eq_nil
        cases hb : base with
        | nil => rfl
        | cons p bs =>
            have hp : p ∈ base := by rw [hb]; exact List.mem_cons_self p bs
            by_cases hdm : iexact p.district r.district = true
            · have hmemf : p ∈ base.filter (fun p => iexact p.district r.district) :=
                List.mem_filter.mpr ⟨hp, hdm⟩
              rw [hf1] at hmemf
              simp at hmemf
            · have hmemf : p ∈ base.filter (fun p => !(iexact p.district r.district)) :=
                List.mem_filter.mpr ⟨hp, by simp [hdm]⟩
              rw [hf2] at hmemf
              simp at hmemf
      · intro hnil
        have e1 : t1 = [] := by rw [ht1, hnil]; rfl
        have e2 : t2 = [] := by rw [ht2, hnil]; rfl
        rw [e1, e2]
        rfl
    refine ⟨?_, fun heq => absurd heq hd,
      fun _ => ⟨t1, t2, hgs, ht1perm, ht2perm, hiff⟩⟩
    intro g hg
    rw [hgs] at hg
    rcases List.mem_append.mp hg with hg1 | hg2
    · by_cases he : t1.isEmpty
      · rw [if_pos he] at hg1
        simp at hg1
      · rw [if_neg he] at hg1
        rcases List.mem_singleton.mp hg1 with rfl
        exact sortProviders_sorted _
    · by_cases he : t2.isEmpty
      · rw [if_pos he] at hg2
        simp at hg2
      · rw [if_neg he] at hg2
        rcases List.mem_singleton.mp hg2 with rfl
        exact sortProviders_sorted _


/-- Counterexample to C9 as stated: a sentinel-district request with no
eligible provider yields `[[]]` — one empty tier — not the empty list the
claim asserts (views.py line 373 wraps the sentinel branch unconditionally). -/
theorem build_provider_candidate_groups_sentinel_counterexample :
    ([] : List Provider).filter (isEligible fixSentinelRequest) = [] ∧
    build_provider_candidate_groups [] fixSentinelRequest = [[]] ∧
    build_provider_candidate_groups [] fixSentinelRequest ≠ [] := by
  decide

/-- Witness for C9 (amended): the sentinel fixture request over the two
fixture providers yields the single tier `[fixProviderA, fixProviderB]`
(rating 5 before rating 4), sorted and a permutation of the eligible set. -/
theorem build_provider_candidate_groups_spec_witness :
    build_provider_candidate_groups [fixProviderB, fixProviderA] fixSentinelRequest
      = [[fixProviderA, fixProviderB]] ∧
    List.Pairwise providerOrder [fixProviderA, fixProviderB] ∧
    [fixProviderA, fixProviderB].Perm
      ([fixProviderB, fixProviderA].filter (isEligible fixSentinelRequest)) := by
  have h := build_provider_candidate_groups_spec [fixProviderB, fixProviderA]
    fixSentinelRequest (by decide)
  have hgs : build_provider_candidate_groups [fixProviderB, fixProviderA] fixSentinelRequest
      = [[fixProviderA, fixProviderB]] := by decide
  obtain ⟨t, ht, hp⟩ := h.2.1 (by decide)
  rw [hgs] at ht
  have hts : t = [fixProviderA, fixProviderB] := by
    have := List.cons.inj ht
    exact this.1.symm
  refine ⟨hgs, ?_, hts ▸ hp⟩
  have hmem : [fixProviderA, fixProviderB]
      ∈ build_provider_candidate_groups [fixProviderB, fixProviderA] fixSentinelRequest := by
    rw [hgs]
    exact List.mem_singleton_self _
  exact h.1 _ hmem

/-- The backfill step leaves a quiet offer unchanged. -/
theorem backfill_quiet_id (cfg : Config) (now : Nat) (o : ProviderOffer)
    (h : OfferQuiet cfg now o) : backfillOffer cfg o = o := by
  unfold backfillOffer
  by_cases hp : o.status = .pending
  · obtain ⟨e, he, _, _⟩ := h hp
    rw [if_neg]
    rintro ⟨-, h2⟩
    rw [he] at h2
    cases h2
  · rw [if_neg]
    rintro ⟨h1, -⟩
    exact hp h1

/-- A quiet offer is not up for expiry. -/
theorem expiring_quiet_false (cfg : Config) (now : Nat) (o : ProviderOffer)
    (h : OfferQuiet cfg now o) : isExpiringNow now o = false := by
  unfold isExpiringNow
  by_cases hp : o.status = .pending
  · obtain ⟨e, he, hlt, _⟩ := h hp
    rw [he]
    simp only [hp]
    simp
    omega
  · simp [hp]

/-- The expiry step leaves a quiet offer unchanged. -/
theorem expire_quiet_id (cfg : Config) (now : Nat) (o : ProviderOffer)
    (h : OfferQuiet cfg now o) : expireOffer now o = o := by
  unfold expireOffer
  rw [expiring_quiet_false cfg now o h]
  simp

/-- The reminder step leaves a quiet offer unchanged. -/
theorem remind_quiet_id (cfg : Config) (now : Nat) (o : ProviderOffer)
    (h : OfferQuiet cfg now o) : remindOffer cfg now o = o := by
  unfold remindOffer
  have hnr : needsReminder cfg now o = false := by
    unfold needsReminder
    by_cases hp : o.status = .pending
    · obtain ⟨e, he, hlt, hwin⟩ := h hp
      rw [he]
      by_cases hin : e ≤ now + get_offer_reminder_minutes cfg
      · have := hwin hin
        simp [this]
      · simp [hin]
    · simp [hp]
  rw [hnr]
  simp

/-- When every offer is quiet, the lifecycle sweep is a no-op: nothing is
backfilled, expired or reminded, and the reconcile loop is skipped. -/
theorem refresh_fixpoint (cfg : Config) (st : St) (now : Nat)
    (hq : ∀ o ∈ st.offers, OfferQuiet cfg now o) :
    refresh_offer_lifecycle cfg st now = st := by
  have h1 : st.offers.map (backfillOffer cfg) = st.offers := by
    rw [mapCongrOn (backfillOffer cfg) id st.offers
      (fun o ho => backfill_quiet_id cfg now o (hq o ho)), List.map_id]
  have h2 : st.offers.filter (isExpiringNow now) = [] :=
    filterAllFalse _ _ (fun o ho => expiring_quiet_false cfg now o (hq o ho))
  have h3 : st.offers.map (expireOffer now) = st.offers := by
    rw [mapCongrOn (expireOffer now) id st.offers
      (fun o ho => expire_quiet_id cfg now o (hq o ho)), List.map_id]
  have h4 : st.offers.map (remindOffer cfg now) = st.offers := by
    rw [mapCongrOn (remindOffer cfg now) id st.offers
      (fun o ho => remind_quiet_id cfg now o (hq o ho)), List.map_id]
  unfold refresh_offer_lifecycle
  dsimp only
  rw [h1, h2, h3, h4]
  simp

/-- After backfill, expiry and reminder processing, every offer is quiet at
the same instant. -/
theorem steps_quiet (cfg : Config) (now : Nat) (o : ProviderOffer) :
    OfferQuiet cfg now (remindOffer cfg now (expireOffer now (backfillOffer cfg o))) := by
  by_cases hp : o.status = .pending
  · obtain ⟨e, hbe⟩ : ∃ e, (backfillOffer cfg o).expires_at = some e := by
      unfold backfillOffer
      by_cases h1 : o.status = .pending ∧ o.expires_at = none
      · rw [if_pos h1]
        exact ⟨_, rfl⟩
      · rw [if_neg h1]
        cases hoe : o.expires_at with
        | some e => exact ⟨e, rfl⟩
        | none => exact absurd ⟨hp, hoe⟩ h1
    have hbst : (backfillOffer cfg o).status = .pending := by
      unfold backfillOffer
      split
      · exact hp
      · exact hp
    by_cases hle : e ≤ now
    · have hise : isExpiringNow now (backfillOffer cfg o) = true := by
        simp [isExpiringNow, hbst, hbe, hle]
      have hexp : expireOffer now (backfillOffer cfg o)
          = { backfillOffer cfg o with status := .expired, responded_at := some now } := by
        simp [expireOffer, hise]
      rw [hexp]
      have hrem : remindOffer cfg now
          { backfillOffer cfg o with status := .expired, responded_at := some now }
          = { backfillOffer cfg o with status := .expired, responded_at := some now } := by
        simp [remindOffer, needsReminder]
      rw [hrem]
      intro hcon
      simp at hcon
    · have hlt : now < e := by omega
      have hise : isExpiringNow now (backfillOffer cfg o) = false := by
        simp [isExpiringNow, hbst, hbe]
        omega
      have hexp : expireOffer now (backfillOffer cfg o) = backfillOffer cfg o := by
        simp [expireOffer, hise]
      rw [hexp]
      by_cases hwin : e ≤ now + get_offer_reminder_minutes cfg
      · by_cases hrs : (backfillOffer cfg o).reminder_sent_at = none
        · have hnr : needsReminder cfg now (backfillOffer cfg o) = true := by
            simp [needsReminder, hbst, hbe, hrs, hwin, hlt]
          have hrem : remindOffer cfg now (backfillOffer cfg o)
              = { backfillOffer cfg o with reminder_sent_at := some now } := by
            simp [remindOffer, hnr]
          rw [hrem]
          intro _
          exact ⟨e, hbe, hlt, fun _ => by simp⟩
        · have hnr : needsReminder cfg now (backfillOffer cfg o) = false := by
            simp [needsReminder, hrs]
          have hrem : remindOffer cfg now (backfillOffer cfg o) = backfillOffer cfg o := by
            simp [remindOffer, hnr]
          rw [hrem]
          intro _
          exact ⟨e, hbe, hlt, fun _ => hrs⟩
      · have hnr : needsReminder cfg now (backfillOffer cfg o) = false := by
          simp [needsReminder, hbe, hwin]
        have hrem : remindOffer cfg now (backfillOffer cfg o) = backfillOffer cfg o := by
          simp [remindOffer, hnr]
        rw [hrem]
        intro _
        exact ⟨e, hbe, hlt, fun hcon => absurd hcon hwin⟩
  · have hback : backfillOffer cfg o = o := by
      unfold backfillOffer
      rw [if_neg (fun h => hp h.1)]
    have hexp : expireOffer now o = o := by
      have hise : isExpiringNow now o = false := by simp [isExpiringNow, hp]
      simp [expireOffer, hise]
    have hrem : remindOffer cfg now o = o := by
      have hnr : needsReminder cfg now o = false := by simp [needsReminder, hp]
      simp [remindOffer, hnr]
    rw [hback, hexp, hrem]
    exact fun h => absurd h hp

/-- Offers of a dispatch wave are pending with the wave expiry and no
reminder. -/
theorem createWaveOffers_fields (rid now expiresAt : Nat) :
    ∀ (ps : List Provider) (seq key : Nat),
      ∀ o ∈ createWaveOffers rid now expiresAt seq key ps,
        o.status = .pending ∧ o.expires_at = some expiresAt ∧ o.reminder_sent_at = none := by
  intro ps
  induction ps with
  | nil => intro seq key o ho; simp [createWaveOffers] at ho
  | cons p ps ih =>
      intro seq key o ho
      rw [createWaveOffers] at ho
      rcases List.mem_cons.mp ho with rfl | ho2
      · exact ⟨rfl, rfl, rfl⟩
      · exact ih (seq + 1) (key + 1) o ho2

/-- The tier walk only appends wave offers to the offer table. -/
theorem dispatchWalk_offers_shape (cfg : Config) (st : St) (r : ServiceRequest)
    (now : Nat) (offered : List Nat) :
    ∀ groups : List (List Provider), ∃ ns,
      (dispatchWalk cfg st r now offered groups).1.offers = st.offers ++ ns ∧
      ∀ o ∈ ns, o.status = .pending ∧
        o.expires_at = some (now + get_offer_expiry_minutes cfg) ∧
        o.reminder_sent_at = none := by
  intro groups
  induction groups with
  | nil =>
      refine ⟨[], ?_, by simp⟩
      rw [dispatchWalk]
      simp [updateRequest]
  | cons g gs ih =>
      rw [dispatchWalk]
      by_cases hempty : (g.filter (fun p => !(offered.contains p.id))).isEmpty = true
      · rw [if_pos hempty]
        exact ih
      · rw [if_neg hempty]
        refine ⟨createWaveOffers r.id now (now + get_offer_expiry_minutes cfg)
          ((offersOfRequest st r.id).length + 1) st.next_offer_id
          (g.filter (fun p => !(offered.contains p.id))), rfl,
          createWaveOffers_fields r.id now (now + get_offer_expiry_minutes cfg) _ _ _⟩

/-- Dispatch only appends wave offers to the offer table. -/
theorem dispatch_offers_shape (cfg : Config) (st : St) (r : ServiceRequest) (now : Nat) :
    ∃ ns, (dispatch_next_provider_offer cfg st r now).1.offers = st.offers ++ ns ∧
      ∀ o ∈ ns, o.status = .pending ∧
        o.expires_at = some (now + get_offer_expiry_minutes cfg) ∧
        o.reminder_sent_at = none := by
  unfold dispatch_next_provider_offer
  by_cases hg : (build_provider_candidate_groups st.providers r).isEmpty = true
  · rw [if_pos hg]
    refine ⟨[], ?_, by simp⟩
    simp [updateRequest]
  · rw [if_neg hg]
    exact dispatchWalk_offers_shape cfg st r now _ _

/-- Reconciling one request keeps all offers quiet, because any offers it
creates expire a full expiry window after `now`, beyond the reminder
window. -/
theorem reconcileOne_quiet (cfg : Config) (now : Nat) (s : St) (r : ServiceRequest)
    (hrem : get_offer_reminder_minutes cfg < get_offer_expiry_minutes cfg)
    (hq : ∀ o ∈ s.offers, OfferQuiet cfg now o) :
    ∀ o ∈ (reconcileOne cfg now s r).offers, OfferQuiet cfg now o := by
  unfold reconcileOne
  split
  · exact hq
  · split
    · exact hq
    · split
      · exact hq
      · obtain ⟨ns, hns, hfields⟩ := dispatch_offers_shape cfg s r now
        rw [hns]
        intro o ho
        rcases List.mem_append.mp ho with h1 | h2
        · exact hq o h1
        · obtain ⟨hst, hexp, hrs⟩ := hfields o h2
          intro _
          have hx : 1 ≤ get_offer_expiry_minutes cfg := le_max_left 1 _
          refine ⟨now + get_offer_expiry_minutes cfg, hexp, by omega, ?_⟩
          intro hcon
          exfalso
          omega

/-- The whole reconcile loop keeps all offers quiet. -/
theorem foldl_reconcile_quiet (cfg : Config) (now : Nat)
    (hrem : get_offer_reminder_minutes cfg < get_offer_expiry_minutes cfg) :
    ∀ (rs : List ServiceRequest) (s : St), (∀ o ∈ s.offers, OfferQuiet cfg now o) →
      ∀ o ∈ (rs.foldl (reconcileOne cfg now) s).offers, OfferQuiet cfg now o := by
  intro rs
  induction rs with
  | nil => intro s hq; exact hq
  | cons r rs ih =>
      intro s hq
      exact ih _ (reconcileOne_quiet cfg now s r hrem hq)

/-- After one lifecycle sweep every offer is quiet, provided the reminder
window is shorter than the expiry window. -/
theorem refresh_result_quiet (cfg : Config) (st : St) (now : Nat)
    (hrem : get_offer_reminder_minutes cfg < get_offer_expiry_minutes cfg) :
    ∀ o ∈ (refresh_offer_lifecycle cfg st now).offers, OfferQuiet cfg now o := by
  have hbase : ∀ o2 ∈ ((st.offers.map (backfillOffer cfg)).map (expireOffer now)).map
      (remindOffer cfg now), OfferQuiet cfg now o2 := by
    intro o2 ho2
    obtain ⟨o1, ho1, rfl⟩ := List.mem_map.mp ho2
    obtain ⟨o0, ho0, rfl⟩ := List.mem_map.mp ho1
    obtain ⟨o, ho, rfl⟩ := List.mem_map.mp ho0
    exact steps_quiet cfg now o
  unfold refresh_offer_lifecycle
  dsimp only
  split
  · exact hbase
  · exact foldl_reconcile_quiet cfg now hrem _ _ hbase

/-- C3: with the reminder window shorter than the offer expiry window (the
shipped defaults are 60 < 180 minutes), running `refresh_offer_lifecycle`
twice at the same instant changes nothing on the second run: no offer is
newly expired, backfilled or re-reminded, no request status changes, and no
new offers are dispatched — the second sweep returns its input state
exactly. -/
theorem refresh_offer_lifecycle_idempotent (cfg : Config) (st : St) (now : Nat)
    (hrem : get_offer_reminder_minutes cfg < get_offer_expiry_minutes cfg) :
    refresh_offer_lifecycle cfg (refresh_offer_lifecycle cfg st now) now
      = refresh_offer_lifecycle cfg st now :=
  refresh_fixpoint cfg _ now (refresh_result_quiet cfg st now hrem)

/-- Witness for C3: at the default configuration, sweeping a state holding
an already-expired pending offer (which expires it and re-dispatches to the
second provider) twice equals sweeping it once. -/
theorem refresh_offer_lifecycle_idempotent_witness :
    get_offer_reminder_minutes defaultConfig < get_offer_expiry_minutes defaultConfig ∧
    refresh_offer_lifecycle defaultConfig
        (refresh_offer_lifecycle defaultConfig fixLifecycleSt 5) 5
      = refresh_offer_lifecycle defaultConfig fixLifecycleSt 5 :=
  ⟨by decide, refresh_offer_lifecycle_idempotent defaultConfig fixLifecycleSt 5 (by decide)⟩


end Gusbo
